import Mathlib

/-! GoalFlow: goal progress, status derivation and score accrual.

A shallow embedding of `backend/models/Goal.js`, `backend/routes/goals.js`,
`backend/routes/users.js` and the statistics of `frontend/src/pages/Analytics.js`.

* Dates are integers: milliseconds since the epoch, as in a JavaScript `Date`.
* Progress values are integers (the data model's `0..100` percentage).
* Object identifiers are natural numbers.
* A request body is a record of optional fields: `none` is an absent field.
* The persistent store is passed explicitly; every route handler is a function
  from the store before the request to the store after it and the response.
-/

namespace GoalFlow

/-! ## JavaScript primitives used by the schema and the routes -/

/-- Length of a JavaScript string: the number of UTF-16 code units. -/
def jsLength (s : String) : Nat :=
  (s.toList.map (fun c => if c.toNat < 65536 then 1 else 2)).sum

/-- White space and line terminators removed by `String.prototype.trim`. -/
def jsIsSpace (c : Char) : Bool :=
  decide (c.toNat ∈ [9, 10, 11, 12, 13, 32, 160, 5760, 8232, 8233, 8239, 8287, 12288, 65279])
    || (decide (8192 ≤ c.toNat) && decide (c.toNat ≤ 8202))

/-- The method `String.prototype.trim`, applied by the `trim: true` schema option. -/
def jsTrim (s : String) : String :=
  String.mk ((s.toList.dropWhile jsIsSpace).reverse.dropWhile jsIsSpace).reverse

/-- The function `Math.round`: the nearest integer, a tie going towards plus infinity. -/
def jsRound (x : ℚ) : Int :=
  Rat.floor (x + 1 / 2)

/-! ## The Goal schema (`models/Goal.js`) -/

/-- The `status` enum of the schema. -/
inductive Status where
  | notStarted
  | inProgress
  | completed
  | behindSchedule
  deriving DecidableEq, Repr

/-- The string each status stands for in the source. -/
def Status.toString : Status → String
  | .notStarted => "not-started"
  | .inProgress => "in-progress"
  | .completed => "completed"
  | .behindSchedule => "behind-schedule"

/-- Enum validation of a supplied `status` string. -/
def Status.ofString? (s : String) : Option Status :=
  if s = "not-started" then some .notStarted
  else if s = "in-progress" then some .inProgress
  else if s = "completed" then some .completed
  else if s = "behind-schedule" then some .behindSchedule
  else none

/-- The `category` enum of the schema. -/
inductive Category where
  | health
  | career
  | education
  | finance
  | personal
  | relationship
  | other
  deriving DecidableEq, Repr

/-- Enum validation of a supplied `category` string. -/
def Category.ofString? (s : String) : Option Category :=
  if s = "health" then some .health
  else if s = "career" then some .career
  else if s = "education" then some .education
  else if s = "finance" then some .finance
  else if s = "personal" then some .personal
  else if s = "relationship" then some .relationship
  else if s = "other" then some .other
  else none

/-- The `priority` enum of the schema. -/
inductive Priority where
  | low
  | medium
  | high
  deriving DecidableEq, Repr

/-- Enum validation of a supplied `priority` string. -/
def Priority.ofString? (s : String) : Option Priority :=
  if s = "low" then some .low
  else if s = "medium" then some .medium
  else if s = "high" then some .high
  else none

/-- One entry of the `progressUpdates` ledger. -/
structure ProgressUpdate where
  date : Int
  progress : Int
  notes : Option String
  deriving DecidableEq, Repr

/-- One entry of `milestones`. -/
structure Milestone where
  title : String
  targetDate : Option Int
  completed : Bool
  deriving DecidableEq, Repr

/-- A Goal document. -/
structure Goal where
  _id : Nat
  user : Nat
  title : String
  description : Option String
  category : Category
  targetDate : Int
  createdAt : Int
  progressUpdates : List ProgressUpdate
  milestones : List Milestone
  currentProgress : Int
  status : Status
  priority : Priority
  isPublic : Bool
  deriving DecidableEq, Repr

/-- The quantity `daysLeft` of `calculateStatus`: `(targetDate - now) / (1000 * 60 * 60 * 24)`,
as an exact rational. -/
def daysLeft (targetDate now : Int) : ℚ :=
  ((targetDate - now : Int) : ℚ) / (1000 * 60 * 60 * 24)

/-- The method `goalSchema.methods.calculateStatus`, the clock reading `new Date()` passed
as `now`. -/
def Goal.calculateStatus (g : Goal) (now : Int) : Status :=
  if g.currentProgress = 100 then .completed
  else if g.currentProgress = 0 then .notStarted
  else if daysLeft g.targetDate now < 0 ∨ (g.currentProgress < 50 ∧ daysLeft g.targetDate now < 7) then
    .behindSchedule
  else .inProgress

/-- Schema validation of a Goal document, as run by `save()`: `title` is required (a
required string is non-empty) and at most 100 long, `description` at most 500 long, every
ledger entry has `progress` within `0..100` and `notes` at most 300 long, every milestone has
a title, and `currentProgress` is within `0..100`. The enum fields are valid by their type. -/
def Goal.valid (g : Goal) : Bool :=
  decide (g.title ≠ "") && decide (jsLength g.title ≤ 100)
    && (match g.description with
        | none => true
        | some d => decide (jsLength d ≤ 500))
    && g.progressUpdates.all (fun u =>
        decide (0 ≤ u.progress) && decide (u.progress ≤ 100)
          && (match u.notes with
              | none => true
              | some n => decide (jsLength n ≤ 300)))
    && g.milestones.all (fun m => decide (m.title ≠ ""))
    && decide (0 ≤ g.currentProgress) && decide (g.currentProgress ≤ 100)

/-! ## Users -/

/-- The `status` enum of a partner request. -/
inductive RequestStatus where
  | pending
  | accepted
  | rejected
  deriving DecidableEq, Repr

/-- Modelled from the spec: an entry of `partnerRequests`; `models/User.js` is not among the
sources. It carries its identifier, the requesting user, its status and its creation date. -/
structure PartnerRequest where
  _id : Nat
  user : Nat
  status : RequestStatus
  createdAt : Int
  deriving DecidableEq, Repr

/-- Modelled from the spec: the User document; `models/User.js` is not among the sources.
It carries the identifier, name, email, integer score, optional accountability partner and
the ordered collection of partner requests. -/
structure User where
  _id : Nat
  name : String
  email : String
  score : Int
  accountabilityPartner : Option Nat
  partnerRequests : List PartnerRequest
  deriving DecidableEq, Repr

/-! ## The store -/

/-- The persisted collections. -/
structure Store where
  goals : List Goal
  users : List User
  deriving DecidableEq, Repr

/-- The query `Goal.findOne({ _id: id, user: owner })`. -/
def Store.findGoal (s : Store) (id owner : Nat) : Option Goal :=
  s.goals.find? (fun g => decide (g._id = id) && decide (g.user = owner))

/-- The query `User.findById(id)`. -/
def Store.findUser (s : Store) (id : Nat) : Option User :=
  s.users.find? (fun u => decide (u._id = id))

/-- The write of `save()` on a document that was loaded from the store: the stored document
with the same `_id` is replaced. -/
def Store.saveGoal (s : Store) (goal : Goal) : Store :=
  { s with goals := s.goals.map (fun g => if g._id = goal._id then goal else g) }

/-- The write of `save()` on a new document: it is inserted into the collection. -/
def Store.insertGoal (s : Store) (goal : Goal) : Store :=
  { s with goals := s.goals ++ [goal] }

/-- The update `User.findByIdAndUpdate(id, { $inc: { score: delta } })`; nothing happens when
no user has the identifier. -/
def Store.incScore (s : Store) (id : Nat) (delta : Int) : Store :=
  { s with users := s.users.map (fun u => if u._id = id then { u with score := u.score + delta } else u) }

/-! ## Requests and responses of `routes/goals.js` -/

/-- An element of a supplied `progressUpdates` array. -/
structure ProgressUpdateInput where
  date : Option Int
  progress : Option Int
  notes : Option String
  deriving DecidableEq, Repr

/-- An element of a supplied `milestones` array. -/
structure MilestoneInput where
  title : Option String
  targetDate : Option Int
  completed : Option Bool
  deriving DecidableEq, Repr

/-- The body of `POST /`: any of the schema's fields may be present. An absent array is the
empty list. -/
structure GoalInput where
  user : Option Nat
  title : Option String
  description : Option String
  category : Option String
  targetDate : Option Int
  createdAt : Option Int
  progressUpdates : List ProgressUpdateInput
  milestones : List MilestoneInput
  currentProgress : Option Int
  status : Option String
  priority : Option String
  isPublic : Option Bool
  deriving DecidableEq, Repr

/-- The body of `PATCH /:id/progress`. -/
structure ProgressInput where
  progress : Option Int
  notes : Option String
  deriving DecidableEq, Repr

/-- What a handler of `routes/goals.js` answers. -/
inductive Response where
  /-- Status 201 with the created goal. -/
  | created (goal : Goal)
  /-- Status 200 with the updated goal. -/
  | ok (goal : Goal)
  /-- Status 404, `Goal not found`. -/
  | notFound
  /-- Status 400 with the message of the caught error. -/
  | badRequest
  deriving DecidableEq, Repr

/-- Which of the awaited persistence calls of a handler reject; a rejection is caught by the
handler's `catch`. A lookup also rejects when the identifier in the path cannot be cast to
an object identifier. -/
structure Faults where
  find : Bool
  save : Bool
  update : Bool
  deriving DecidableEq, Repr

/-- Every persistence call succeeds. -/
def Faults.none : Faults :=
  { find := false, save := false, update := false }

/-! ## Goal creation: `router.post('/')` -/

/-- Casting of a supplied ledger entry: `date` defaults to the clock, `progress` is required. -/
def ProgressUpdateInput.toDoc (u : ProgressUpdateInput) (now : Int) : Option ProgressUpdate :=
  match u.progress with
  | none => none
  | some p => some { date := u.date.getD now, progress := p, notes := u.notes }

/-- Casting of a supplied milestone: `title` is required, `completed` defaults to `false`. -/
def MilestoneInput.toDoc (m : MilestoneInput) : Option Milestone :=
  match m.title with
  | none => none
  | some t => some { title := t, targetDate := m.targetDate, completed := m.completed.getD false }

/-- The `category` of a new document: the default `personal` when absent, else the
supplied string if it passes the enum validator. -/
def castCategory : Option String → Option Category
  | none => some Category.personal
  | some c => Category.ofString? c

/-- The `status` of a new document: the default `not-started` when absent, else the
supplied string if it passes the enum validator. -/
def castStatus : Option String → Option Status
  | none => some Status.notStarted
  | some st => Status.ofString? st

/-- The `priority` of a new document: the default `medium` when absent, else the supplied
string if it passes the enum validator. -/
def castPriority : Option String → Option Priority
  | none => some Priority.medium
  | some p => Priority.ofString? p

/-- The document `new Goal({ ...req.body, user: req.user._id })` with the schema's setters
and defaults applied: `user` is overridden by the requester, `title` is trimmed, and
`category`, `createdAt`, `currentProgress`, `status`, `priority` and `isPublic` take their
default when absent. The result is `none` when a required field is absent or an enum field
holds a string outside its enum, which `save()` rejects. -/
def newGoal (body : GoalInput) (requester newId : Nat) (now : Int) : Option Goal := do
  let title ← body.title
  let targetDate ← body.targetDate
  let category ← castCategory body.category
  let status ← castStatus body.status
  let priority ← castPriority body.priority
  let progressUpdates ← body.progressUpdates.mapM (fun u => u.toDoc now)
  let milestones ← body.milestones.mapM (fun m => m.toDoc)
  pure {
    _id := newId
    user := requester
    title := jsTrim title
    description := body.description
    category := category
    targetDate := targetDate
    createdAt := body.createdAt.getD now
    progressUpdates := progressUpdates
    milestones := milestones
    currentProgress := body.currentProgress.getD 0
    status := status
    priority := priority
    isPublic := body.isPublic.getD false }

/-- The handler `router.post('/')`. The identifier `newId` is the one generated for the new
document; an insert under an identifier already in the collection is rejected. -/
def createGoal (s : Store) (requester : Nat) (body : GoalInput) (newId : Nat) (now : Int)
    (f : Faults) : Store × Response :=
  match newGoal body requester newId now with
  | none => (s, .badRequest)
  | some goal =>
    if f.save || !goal.valid || s.goals.any (fun g => decide (g._id = newId)) then
      (s, .badRequest)
    else
      (s.insertGoal goal, .created goal)

/-! ## Progress update: `router.patch('/:id/progress')` -/

/-- The handler `router.patch('/:id/progress')`. The clock reading is `now`, used both for
the default `date` of the pushed entry and by `calculateStatus`. The pushed notes are
`notes || ''`: the empty string when the body has none. A body without `progress` leaves the
pushed entry without its required `progress`, which `save()` rejects. -/
def recordProgress (s : Store) (requester goalId : Nat) (body : ProgressInput) (now : Int)
    (f : Faults) : Store × Response :=
  if f.find then (s, .badRequest)
  else
    match s.findGoal goalId requester with
    | none => (s, .notFound)
    | some goal =>
      match body.progress with
      | none => (s, .badRequest)
      | some progress =>
        let goal := { goal with
          progressUpdates := goal.progressUpdates ++
            [ProgressUpdate.mk now progress (some (body.notes.getD ""))] }
        let goal := { goal with currentProgress := progress }
        let goal := { goal with status := goal.calculateStatus now }
        if f.save || !goal.valid then (s, .badRequest)
        else
          let s := s.saveGoal goal
          if f.update then (s, .badRequest)
          else (s.incScore requester (jsRound ((progress : ℚ) / 10)), .ok goal)

/-- The in-memory document after the three mutations of the progress handler: the entry is
pushed, `currentProgress` is assigned and `status` is recomputed. -/
def Goal.pushProgress (g : Goal) (progress : Int) (notes : Option String) (now : Int) : Goal :=
  let goal := { g with
    progressUpdates := g.progressUpdates ++
      [ProgressUpdate.mk now progress (some (notes.getD ""))] }
  let goal := { goal with currentProgress := progress }
  { goal with status := goal.calculateStatus now }

/-! ## Sequences of requests -/

/-- A request to one of the two mutating handlers of `routes/goals.js`, with the clock
reading and the persistence outcome of its run. -/
inductive Event where
  | create (requester : Nat) (body : GoalInput) (newId : Nat) (now : Int) (f : Faults)
  | record (requester goalId : Nat) (body : ProgressInput) (now : Int) (f : Faults)
  deriving DecidableEq, Repr

/-- The store after one request. -/
def step (s : Store) : Event → Store
  | .create requester body newId now f => (createGoal s requester body newId now f).1
  | .record requester goalId body now f => (recordProgress s requester goalId body now f).1

/-- The store after a sequence of requests, oldest first. -/
def run (s : Store) (events : List Event) : Store :=
  events.foldl step s

/-- Whether a creation request carries a `currentProgress` or a `progressUpdates` of its
own. -/
def Event.suppliesLedger : Event → Bool
  | .create _ body _ _ _ => body.currentProgress.isSome || !body.progressUpdates.isEmpty
  | .record _ _ _ _ _ => false

/-- The progress of the most recent ledger entry, `0` for an empty ledger. -/
def lastProgress (ledger : List ProgressUpdate) : Int :=
  match ledger.getLast? with
  | none => 0
  | some u => u.progress

/-- The data-model invariant on one goal: `currentProgress` is the progress of the last
ledger entry. -/
def Goal.ledgerConsistent (g : Goal) : Bool :=
  decide (g.currentProgress = lastProgress g.progressUpdates)

/-- The data-model invariant on every persisted goal. -/
def Store.ledgerConsistent (s : Store) : Bool :=
  s.goals.all Goal.ledgerConsistent

/-! ## Partner requests: `routes/users.js` -/

/-- The body of `PATCH /partner-request/:requestId`. -/
structure RespondInput where
  status : Option String
  deriving DecidableEq, Repr

/-- What a partner-request handler of `routes/users.js` answers. -/
inductive UserResponse where
  /-- Status 200, `Partner request sent`. -/
  | sent
  /-- Status 200, `Request` followed by the status that was set. -/
  | responded (status : RequestStatus)
  /-- Status 404, `User not found`. -/
  | userNotFound
  /-- Status 404, `Request not found`. -/
  | requestNotFound
  /-- Status 400, `Request already sent`. -/
  | alreadySent
  /-- Status 500, `Server error`: the handler's `catch`. -/
  | serverError
  deriving DecidableEq, Repr

/-- Modelled from the spec: enum validation of a request `status` by `save()`; the enum
`pending`, `accepted`, `rejected` is declared in `models/User.js`, which is not among the
sources. A body without `status` leaves the request without one, which the data model does
not admit. -/
def castRequestStatus : Option String → Option RequestStatus
  | none => none
  | some st =>
    if st = "pending" then some RequestStatus.pending
    else if st = "accepted" then some RequestStatus.accepted
    else if st = "rejected" then some RequestStatus.rejected
    else none

/-- The `_id` getter of an ObjectId: Mongoose defines it to return the ObjectId itself. -/
def objectIdSelf (x : Nat) : Nat := x

/-- The write of `save()` on a user document that was loaded from the store. The handlers
change no stored field of that user between loading and saving other than the ones they
assign, so writing the modified paths is writing the document. -/
def Store.saveUser (s : Store) (user : User) : Store :=
  { s with users := s.users.map (fun u => if u._id = user._id then user else u) }

/-- The update `User.findByIdAndUpdate(id, { accountabilityPartner: partner })`; nothing
happens when no user has the identifier. -/
def Store.setPartner (s : Store) (id partner : Nat) : Store :=
  { s with users := s.users.map (fun u =>
      if u._id = id then { u with accountabilityPartner := some partner } else u) }

/-- The handler `router.post('/partner-request/:userId')`. The callback of `find` names its
parameter `req`, which hides the handler's `req`: inside it `req.user` is the requesting
user stored in the entry and `req.user._id` is the `_id` getter of that same ObjectId. The
identifier `newId` is the one generated for the pushed entry, `now` its `createdAt`. -/
def sendRequest (s : Store) (requester target newId : Nat) (now : Int) (f : Faults) :
    Store × UserResponse :=
  if f.find then (s, .serverError)
  else
    match s.findUser target with
    | none => (s, .userNotFound)
    | some targetUser =>
      match targetUser.partnerRequests.find?
          (fun req => decide (req.user = objectIdSelf req.user)) with
      | some _ => (s, .alreadySent)
      | none =>
        let targetUser := { targetUser with
          partnerRequests := targetUser.partnerRequests ++
            [PartnerRequest.mk newId requester RequestStatus.pending now] }
        if f.save then (s, .serverError)
        else (s.saveUser targetUser, .sent)

/-- The handler `router.patch('/partner-request/:requestId')`. A requester without a user
document makes `user.partnerRequests` throw, which the `catch` answers. When the body's
status is `accepted` the other user is updated before the requester's `save()`; `save()`
validates the assigned status. -/
def respond (s : Store) (requester requestId : Nat) (body : RespondInput) (f : Faults) :
    Store × UserResponse :=
  if f.find then (s, .serverError)
  else
    match s.findUser requester with
    | none => (s, .serverError)
    | some user =>
      match user.partnerRequests.find? (fun r => decide (r._id = requestId)) with
      | none => (s, .requestNotFound)
      | some request =>
        let accepted := decide (body.status = some "accepted")
        if accepted && f.update then (s, .serverError)
        else
          let s := if accepted then s.setPartner request.user requester else s
          match castRequestStatus body.status with
          | none => (s, .serverError)
          | some status =>
            let user := { user with
              partnerRequests := user.partnerRequests.map (fun r =>
                if r._id = requestId then { r with status := status } else r)
              accountabilityPartner :=
                if accepted then some request.user else user.accountabilityPartner }
            if f.save then (s, .serverError)
            else (s.saveUser user, .responded status)

/-- A request to one of the two partner-request handlers, with the persistence outcome of
its run. -/
inductive PartnerEvent where
  | send (requester target newId : Nat) (now : Int) (f : Faults)
  | respond (requester requestId : Nat) (body : RespondInput) (f : Faults)
  deriving DecidableEq, Repr

/-- The store and the answer after one partner request. -/
def stepPartner (s : Store) : PartnerEvent → Store × UserResponse
  | .send requester target newId now f => sendRequest s requester target newId now f
  | .respond requester requestId body f => respond s requester requestId body f

/-- The store after a sequence of partner requests, oldest first. -/
def runPartner (s : Store) (events : List PartnerEvent) : Store :=
  events.foldl (fun st e => (stepPartner st e).1) s

/-- The accountability partner recorded for a user, `none` when there is no such user or no
partner. -/
def Store.partnerOf (s : Store) (id : Nat) : Option Nat :=
  match s.findUser id with
  | none => none
  | some u => u.accountabilityPartner

/-- The entry with the given identifier in a user's own `partnerRequests`. -/
def Store.findRequest (s : Store) (holder requestId : Nat) : Option PartnerRequest :=
  match s.findUser holder with
  | none => none
  | some u => u.partnerRequests.find? (fun r => decide (r._id = requestId))

/-- The data-model invariant on partners: whoever names a partner is named back by that
partner. -/
def Store.partnersSymmetric (s : Store) : Bool :=
  s.users.all (fun a =>
    match a.accountabilityPartner with
    | none => true
    | some b => decide (s.partnerOf b = some a._id))

/-- Whether a partner request succeeds in the given store. -/
def PartnerEvent.succeeds (s : Store) (e : PartnerEvent) : Bool :=
  match (stepPartner s e).2 with
  | .sent => true
  | .responded _ => true
  | _ => false

/-- Whether a partner request is an acceptance that links two users of whom one already has
a partner. -/
def PartnerEvent.relinks (s : Store) : PartnerEvent → Bool
  | .send _ _ _ _ _ => false
  | .respond requester requestId body _ =>
    decide (body.status = some "accepted") &&
      (match s.findRequest requester requestId with
       | none => false
       | some r =>
         (s.partnerOf requester).isSome || (s.partnerOf r.user).isSome
           || (s.findUser r.user).isNone)

/-- Whether every request of the sequence succeeds, run in order from the given store. -/
def allSucceed : Store → List PartnerEvent → Bool
  | _, [] => true
  | s, e :: es => e.succeeds s && allSucceed (stepPartner s e).1 es

/-- Whether every request of the sequence succeeds and no acceptance links a user who already
has a partner, run in order from the given store. -/
def allSucceedFresh : Store → List PartnerEvent → Bool
  | _, [] => true
  | s, e :: es => e.succeeds s && !e.relinks s && allSucceedFresh (stepPartner s e).1 es

/-- The user document after `request.status = status` on the entry with the given
identifier. -/
def User.withStatus (u : User) (requestId : Nat) (status : RequestStatus) : User :=
  { u with partnerRequests := u.partnerRequests.map (fun r =>
      if r._id = requestId then { r with status := status } else r) }

/-- The user document after an acceptance: the entry's status is `accepted` and the
entry's requesting user is the accountability partner. -/
def User.accepting (u : User) (requestId partner : Nat) : User :=
  { _id := u._id, name := u.name, email := u.email, score := u.score,
    accountabilityPartner := some partner,
    partnerRequests := (u.withStatus requestId RequestStatus.accepted).partnerRequests }

/-! ## Statistics of `router.get('/')` -/

/-- The quotient `a / b` of two finite numbers, `none` standing for NaN. The handlers divide
a count or a sum over a list by the length of that list, so a zero divisor comes with a zero
dividend, which is NaN. -/
def jsDiv (a b : ℚ) : Option ℚ :=
  if b = 0 then none else some (a / b)

/-- The expression `x || 0` on a number: NaN and 0 are falsy and give 0. -/
def jsOrZero : Option ℚ → ℚ
  | none => 0
  | some x => if x = 0 then 0 else x

/-- The query `Goal.find({ user: owner })`. -/
def Store.goalsOf (s : Store) (owner : Nat) : List Goal :=
  s.goals.filter (fun g => decide (g.user = owner))

/-- The `stats` object of `router.get('/')`. -/
structure Stats where
  totalGoals : Nat
  completedGoals : Nat
  averageProgress : Int
  inProgressGoals : Nat
  behindSchedule : Nat
  deriving DecidableEq, Repr

/-- The statistics computed by `router.get('/')` from the goals it has loaded. -/
def goalStats (goals : List Goal) : Stats :=
  let totalGoals := goals.length
  let completedGoals := (goals.filter (fun g => decide (g.currentProgress = 100))).length
  let averageProgress := jsOrZero
    (jsDiv ((goals.foldl (fun acc goal => acc + goal.currentProgress) (0 : Int) : Int) : ℚ)
      (totalGoals : ℚ))
  { totalGoals := totalGoals
    completedGoals := completedGoals
    averageProgress := jsRound averageProgress
    inProgressGoals := (goals.filter (fun g => decide (g.status = Status.inProgress))).length
    behindSchedule := (goals.filter (fun g => decide (g.status = Status.behindSchedule))).length }

/-- The handler `router.get('/')`: the requester's goals, newest first, and their
statistics. -/
def listGoals (s : Store) (requester : Nat) : List Goal × Stats :=
  let goals := (s.goalsOf requester).insertionSort (fun a b => b.createdAt ≤ a.createdAt)
  (goals, goalStats goals)

/-! ## Analytics of `router.get('/analytics')` -/

/-- The assignment `obj[key] = (obj[key] || 0) + v` on an object held as a list of its
properties. -/
def bump {K : Type} [DecidableEq K] : List (K × Int) → K → Int → List (K × Int)
  | [], key, v => [(key, 0 + v)]
  | (k, x) :: rest, key, v =>
    if k = key then (k, x + v) :: rest else (k, x) :: bump rest key v

/-- The property `obj[key]` of an object held as a list of its properties. -/
def prop? {K : Type} [DecidableEq K] (obj : List (K × Int)) (key : K) : Option Int :=
  (obj.find? (fun kv => decide (kv.1 = key))).map (fun kv => kv.2)

/-- The runtime's `Date` in its local time zone: `getFullYear` and `getMonth` of an instant,
the month counted from 0 to 11. -/
structure Calendar where
  getFullYear : Int → Int
  getMonth : Int → Nat
  getMonth_lt : ∀ t, getMonth t < 12

/-- The `forEach` of `router.get('/analytics')`: `categoryData` and `monthlyProgress`. -/
def analyticsLoop (cal : Calendar) (goals : List Goal) :
    List (Category × Int) × List (Nat × Int) :=
  goals.foldl (fun acc goal =>
    (bump acc.1 goal.category 1,
     bump acc.2 (cal.getMonth goal.createdAt) goal.currentProgress)) ([], [])

/-- The integer nearest to `q`, a tie going to the even one. -/
def roundHalfEven (q : ℚ) : Int :=
  if q - (⌊q⌋ : ℚ) < 1 / 2 then ⌊q⌋
  else if 1 / 2 < q - (⌊q⌋ : ℚ) then ⌊q⌋ + 1
  else if ⌊q⌋ % 2 = 0 then ⌊q⌋
  else ⌊q⌋ + 1

/-- The double nearest to the number `x`, a tie going to the even significand: the value the
runtime stores for an arithmetic operation whose exact result is `x`. A double is held as
the rational it stands for. The significand has 53 bits: for `2 ^ e ≤ |x| < 2 ^ (e + 1)`
the doubles around `x` are the multiples of `2 ^ (e - 52)`. The range of the exponent is not
bounded: a quotient of two counts below `2 ^ 53`, and 100 times it, is neither subnormal nor
infinite. -/
def roundDouble (x : ℚ) : ℚ :=
  if x = 0 then 0
  else (roundHalfEven (x / (2 : ℚ) ^ (Int.log 2 |x| - 52)) : ℚ)
    * (2 : ℚ) ^ (Int.log 2 |x| - 52)

/-- The `completionRate` of `router.get('/analytics')`:
`(goals.filter(g => g.currentProgress === 100).length / goals.length * 100) || 0`, the
quotient and the product each rounded to a double. -/
def completionRate (goals : List Goal) : ℚ :=
  jsOrZero (((jsDiv (((goals.filter (fun g => decide (g.currentProgress = 100))).length : ℕ) : ℚ)
    ((goals.length : ℕ) : ℚ)).map roundDouble).map (fun x => roundDouble (x * 100)))

/-- The answer of `router.get('/analytics')`. -/
structure Analytics where
  categoryData : List (Category × Int)
  monthlyProgress : List (Nat × Int)
  completionRate : ℚ

/-- The handler `router.get('/analytics')` on the requester's goals. -/
def getAnalytics (cal : Calendar) (s : Store) (requester : Nat) : Analytics :=
  let goals := s.goalsOf requester
  { categoryData := (analyticsLoop cal goals).1
    monthlyProgress := (analyticsLoop cal goals).2
    completionRate := completionRate goals }

/-- The object built by `obj[key g] = (obj[key g] || 0) + val g` over the goals in order. -/
def tally {K : Type} [DecidableEq K] (key : Goal → K) (val : Goal → Int)
    (goals : List Goal) (obj : List (K × Int)) : List (K × Int) :=
  goals.foldl (fun acc goal => bump acc (key goal) (val goal)) obj

/-- The year and the month, from 0, of a day counted from 1 January 1970 in the proleptic
Gregorian calendar. -/
def civilFromDays (day : Int) : Int × Nat :=
  let z := day + 719468
  let era := z / 146097
  let doe := z - era * 146097
  let yoe := (doe - doe / 1460 + doe / 36524 - doe / 146096) / 365
  let doy := doe - (365 * yoe + yoe / 4 - yoe / 100)
  let mp := (5 * doy + 2) / 153
  let month := ((mp + 2) % 12).toNat
  (if month < 2 then yoe + era * 400 + 1 else yoe + era * 400, month % 12)

/-- The calendar of a runtime whose local time is UTC. -/
def utcCalendar : Calendar :=
  { getFullYear := fun t => (civilFromDays (t / 86400000)).1
    getMonth := fun t => (civilFromDays (t / 86400000)).2
    getMonth_lt := fun _ => Nat.mod_lt _ (by decide) }

/-! ## Statistics of `frontend/src/pages/Analytics.js` -/

/-- One point of the time series. -/
structure TimeSeriesEntry where
  month : String
  goals : Nat
  progress : Int
  score : Int
  deriving DecidableEq, Repr

/-- The label `toLocaleDateString('en-US', { month: 'short' })` of a month counted from 0. -/
def monthShort (month : Nat) : String :=
  ["Jan", "Feb", "Mar", "Apr", "May", "Jun", "Jul", "Aug", "Sep", "Oct", "Nov",
    "Dec"].getD month ""

/-- The goals kept by the `filter` of `getTimeSeriesData` for
`date = new Date(now.getFullYear(), now.getMonth() - i, 1)`: a month below 0 is carried into
the years before. -/
def monthGoals (cal : Calendar) (goals : List Goal) (now : Int) (i : Nat) : List Goal :=
  let dateYear := cal.getFullYear now + ((cal.getMonth now : Int) - (i : Int)) / 12
  let dateMonth := ((cal.getMonth now : Int) - (i : Int)) % 12
  goals.filter (fun goal =>
    decide ((cal.getMonth goal.createdAt : Int) = dateMonth)
      && decide (cal.getFullYear goal.createdAt = dateYear))

/-- The value `avgProgress` of `getTimeSeriesData`, as an exact rational. -/
def avgProgress (monthGoals : List Goal) : ℚ :=
  if monthGoals.length > 0 then
    ((monthGoals.foldl (fun sum g => sum + g.currentProgress) (0 : Int) : Int) : ℚ)
      / ((monthGoals.length : ℕ) : ℚ)
  else 0

/-- The point pushed by one round of the loop of `getTimeSeriesData`. -/
def timeSeriesEntry (cal : Calendar) (goals : List Goal) (now : Int) (i : Nat) :
    TimeSeriesEntry :=
  { month := monthShort
      ((((cal.getMonth now : Int) - (i : Int)) % 12).toNat)
    goals := (monthGoals cal goals now i).length
    progress := jsRound (avgProgress (monthGoals cal goals now i))
    score := ((monthGoals cal goals now i).length : Int) * 10
      + jsRound (avgProgress (monthGoals cal goals now i) * (1 / 2)) }

/-- The function `getTimeSeriesData`, the clock reading `new Date()` passed as `now`: the
loop runs `i` from 5 down to 0. -/
def getTimeSeriesData (cal : Calendar) (goals : List Goal) (now : Int) :
    List TimeSeriesEntry :=
  [5, 4, 3, 2, 1, 0].map (timeSeriesEntry cal goals now)

/-- The day named by `toISOString().split('T')[0]`, as a day number: two instants give the
same string exactly when they fall on the same UTC day. -/
def isoDay (t : Int) : Int :=
  t / 86400000

/-- The runtime's local time zone, as `Date` reads it: `utcOffset t` is the offset of local
time from UTC, in milliseconds, at the instant `t`, and `localOffset l` is the offset in force
at the local wall-clock reading `l`. -/
structure Zone where
  utcOffset : Int → Int
  localOffset : Int → Int

/-- The instant left in `date` by `date.setDate(date.getDate() - 1)`: the local reading of
the instant moves back by one calendar day, the time of day kept, and is read back as an
instant. -/
def Zone.prevDay (zone : Zone) (t : Int) : Int :=
  let localTime := t + zone.utcOffset t
  let newDate := localTime - 86400000
  newDate - zone.localOffset newDate

/-- The loop of `calculateStreak` with `fuel` rounds left: the day searched for is the UTC
day of `toISOString`, the step back is the local calendar day of `setDate`. -/
def streakLoop (zone : Zone) (updates : List ProgressUpdate) : Nat → Nat → Int → Nat
  | 0, streak, _ => streak
  | fuel + 1, streak, date =>
    if updates.any (fun u => decide (isoDay u.date = isoDay date)) then
      streakLoop zone updates fuel (streak + 1) (zone.prevDay date)
    else streak

/-- The function `calculateStreak`, the clock reading `new Date()` passed as `today`: the
ledger entries of all goals, sorted newest first, are searched for each day. -/
def calculateStreak (zone : Zone) (goals : List Goal) (today : Int) : Nat :=
  let updates := (goals.flatMap (fun g => g.progressUpdates)).insertionSort
    (fun a b => b.date ≤ a.date)
  streakLoop zone updates 30 0 today

/-- A zone whose offset from UTC never changes. -/
def fixedZone (offset : Int) : Zone :=
  { utcOffset := fun _ => offset
    localOffset := fun _ => offset }

/-- Central European time around the end of summer time on 27 October 2024 at 01:00 UTC: two
hours ahead of UTC before that instant and one hour ahead from it on. A wall-clock reading
that occurs twice, between 02:00 and 03:00 of that night, is taken at its first occurrence. -/
def berlinAutumn2024 : Zone :=
  { utcOffset := fun t => if t < 1729990800000 then 7200000 else 3600000
    localOffset := fun l => if l < 1729990800000 + 7200000 then 7200000 else 3600000 }

/-! ## Partner goals: `router.get('/partner-goals')` -/

/-- What `router.get('/partner-goals')` answers. -/
inductive GoalsResponse where
  /-- Status 200 with a list of goals. -/
  | goals (list : List Goal)
  /-- Status 500, `Server error`. -/
  | serverError
  deriving DecidableEq, Repr

/-- The handler `router.get('/partner-goals')`. A requester without a user document makes
`user.accountabilityPartner` throw. `populate` replaces the partner's identifier by the
partner's document, or by null when there is none. -/
def listPartnerGoals (s : Store) (requester : Nat) (f : Faults) : GoalsResponse :=
  if f.find then .serverError
  else
    match s.findUser requester with
    | none => .serverError
    | some user =>
      match user.accountabilityPartner.bind s.findUser with
      | none => .goals []
      | some partner =>
        .goals (s.goals.filter (fun g => decide (g.user = partner._id) && g.isPublic))

/-- Whether a goal's stored status agrees with its progress on the two statuses that are
decided by progress alone. -/
def Goal.statusConsistent (g : Goal) : Bool :=
  decide (g.status = Status.completed ↔ g.currentProgress = 100)
    && decide (g.status = Status.notStarted ↔ g.currentProgress = 0)

/-- Whether every persisted goal's status agrees with its progress. -/
def Store.statusConsistent (s : Store) : Bool :=
  s.goals.all Goal.statusConsistent

/-- Whether a creation request carries a `currentProgress`, a `status` or a
`progressUpdates` of its own. -/
def Event.suppliesState : Event → Bool
  | .create _ body _ _ _ =>
    body.currentProgress.isSome || body.status.isSome || !body.progressUpdates.isEmpty
  | .record _ _ _ _ _ => false

/-- Whether some ledger entry falls on the given UTC day. -/
def hasEntryOn (entries : List ProgressUpdate) (day : Int) : Bool :=
  entries.any (fun u => decide (isoDay u.date = day))

/-- The months from year 0 up to the month of an instant: `getFullYear * 12 + getMonth`. -/
def monthIndex (cal : Calendar) (t : Int) : Int :=
  cal.getFullYear t * 12 + (cal.getMonth t : Int)

/-- The goals created in the calendar month with the given index. -/
def createdIn (cal : Calendar) (goals : List Goal) (index : Int) : List Goal :=
  goals.filter (fun g => decide (monthIndex cal g.createdAt = index))

/-- The value `Math.round(avgProgress)` in integer arithmetic. -/
def roundedAverage (monthGoals : List Goal) : Int :=
  if monthGoals.length > 0 then
    (2 * (monthGoals.map (fun g => g.currentProgress)).sum + monthGoals.length)
      / (2 * monthGoals.length)
  else 0

/-! ## Sample data -/

/-- A body of `POST /` that carries only a title and a target date. -/
def sampleBody : GoalInput :=
  { user := none, title := some "Run", description := none, category := none,
    targetDate := some 1000, createdAt := none, progressUpdates := [], milestones := [],
    currentProgress := none, status := none, priority := none, isPublic := none }

/-- A persisted goal of user 7 at progress 80. -/
def sampleGoal : Goal :=
  { _id := 1, user := 7, title := "Run", description := none, category := .health,
    targetDate := 1000, createdAt := 0,
    progressUpdates := [{ date := 2, progress := 80, notes := some "" }], milestones := [],
    currentProgress := 80, status := .inProgress, priority := .medium, isPublic := false }

/-- A user with score 3. -/
def sampleUser : User :=
  { _id := 7, name := "Ada", email := "ada@example.org", score := 3,
    accountabilityPartner := none, partnerRequests := [] }

/-- A store holding `sampleGoal` and its owner. -/
def sampleStore : Store :=
  { goals := [sampleGoal], users := [sampleUser] }

/-- A body of `POST /` that also carries a `currentProgress`, a `status` and a ledger. -/
def suppliedBody : GoalInput :=
  { sampleBody with
    currentProgress := some 50, status := some "completed",
    progressUpdates := [{ date := none, progress := some 30, notes := none }] }

/-- The goal created from `suppliedBody` by user 7 under identifier 1 at time 0. -/
def suppliedGoal : Goal :=
  { _id := 1, user := 7, title := "Run", description := none, category := .personal,
    targetDate := 1000, createdAt := 0,
    progressUpdates := [{ date := 0, progress := 30, notes := none }], milestones := [],
    currentProgress := 50, status := .completed, priority := .medium, isPublic := false }

/-- The goal created from `sampleBody` by user 7 under identifier 1 at time 0. -/
def freshGoal : Goal :=
  { _id := 1, user := 7, title := "Run", description := none, category := .personal,
    targetDate := 1000, createdAt := 0, progressUpdates := [], milestones := [],
    currentProgress := 0, status := .notStarted, priority := .medium, isPublic := false }

/-- A creation, a progress update to 80, a rejected update to 180 and an update down to 40. -/
def sampleEvents : List Event :=
  [Event.create 7 sampleBody 1 0 Faults.none,
   Event.record 7 1 ⟨some 80, none⟩ 5 Faults.none,
   Event.record 7 1 ⟨some 180, none⟩ 6 Faults.none,
   Event.record 7 1 ⟨some 40, none⟩ 7 Faults.none]

/-- A user without partner and without requests. -/
def plainUser (id : Nat) (name : String) : User :=
  { _id := id, name := name, email := name ++ "@example.org", score := 0,
    accountabilityPartner := none, partnerRequests := [] }

/-- Three users, none with a partner or a request. -/
def threeUsers : Store :=
  { goals := [], users := [plainUser 1 "ann", plainUser 2 "bob", plainUser 3 "cy"] }

/-- The body that accepts a request. -/
def acceptBody : RespondInput := { status := some "accepted" }

/-- The body that rejects a request. -/
def rejectBody : RespondInput := { status := some "rejected" }

/-- A title of 103 code units: `Run` followed by 100 spaces. -/
def paddedTitle : String :=
  "Run" ++ String.mk (List.replicate 100 ' ')

/-- A title of 101 code units without white space. -/
def longTitle : String :=
  String.mk (List.replicate 101 'x')

/-- The store `threeUsers` after user 3 has sent a request, numbered 10, to user 2. -/
def cyAskedBob : Store :=
  { goals := [],
    users := [plainUser 1 "ann",
      { plainUser 2 "bob" with
        partnerRequests := [PartnerRequest.mk 10 3 RequestStatus.pending 0] },
      plainUser 3 "cy"] }

/-- The store `threeUsers` after user 1 has sent a request, numbered 10, to user 2. -/
def annAskedBob : Store :=
  { goals := [],
    users := [plainUser 1 "ann",
      { plainUser 2 "bob" with
        partnerRequests := [PartnerRequest.mk 10 1 RequestStatus.pending 0] },
      plainUser 3 "cy"] }

/-- The persistence outcome in which only `save()` rejects. -/
def saveFails : Faults :=
  { find := false, save := true, update := false }

/-- The store `annAskedBob` after user 2 has accepted request 10: users 1 and 2 are linked. -/
def annBobLinked : Store :=
  { goals := [],
    users := [{ plainUser 1 "ann" with accountabilityPartner := some 2 },
      { plainUser 2 "bob" with
        accountabilityPartner := some 1
        partnerRequests := [PartnerRequest.mk 10 1 RequestStatus.accepted 0] },
      plainUser 3 "cy"] }

/-- The store reached from `threeUsers` when user 2 asks user 1, user 1 accepts, and user 3
then asks user 2: user 2 is linked to user 1 and holds request 11 from user 3. -/
def bobLinkedAsked : Store :=
  runPartner threeUsers
    [PartnerEvent.send 2 1 10 0 Faults.none,
     PartnerEvent.respond 1 10 acceptBody Faults.none,
     PartnerEvent.send 3 2 11 0 Faults.none]

/-- User 1 asks user 2, who accepts; then user 2 asks user 3, who accepts. -/
def relinkEvents : List PartnerEvent :=
  [PartnerEvent.send 1 2 10 0 Faults.none,
   PartnerEvent.respond 2 10 acceptBody Faults.none,
   PartnerEvent.send 2 3 11 0 Faults.none,
   PartnerEvent.respond 3 11 acceptBody Faults.none]

/-- User 1 asks user 2, who accepts, rejects and accepts again; user 1 asks user 3, who
rejects. -/
def freshEvents : List PartnerEvent :=
  [PartnerEvent.send 1 2 10 0 Faults.none,
   PartnerEvent.respond 2 10 acceptBody Faults.none,
   PartnerEvent.respond 2 10 rejectBody Faults.none,
   PartnerEvent.send 1 3 11 0 Faults.none,
   PartnerEvent.respond 3 11 rejectBody Faults.none]

/-- Three goals at progress 80, 100 and 80. -/
def threeGoals : List Goal :=
  [sampleGoal, { sampleGoal with _id := 2, currentProgress := 100, status := .completed },
    { sampleGoal with _id := 3 }]

/-- A goal created on 15 January 2023 (UTC) at progress 30. -/
def goalJan2023 : Goal :=
  { sampleGoal with _id := 11, createdAt := 1673740800000, currentProgress := 30 }

/-- A goal created on 15 January 2024 (UTC) at progress 50. -/
def goalJan2024 : Goal :=
  { sampleGoal with _id := 12, createdAt := 1705276800000, currentProgress := 50 }

/-- The users of `annBobLinked` with four goals: a public and a private goal of user 2, a
public goal of user 1 and a public goal of user 3. -/
def sharedStore : Store :=
  { annBobLinked with
    goals := [{ sampleGoal with _id := 21, user := 2, isPublic := true },
      { sampleGoal with _id := 22, user := 2, isPublic := false },
      { sampleGoal with _id := 23, user := 1, isPublic := true },
      { sampleGoal with _id := 24, user := 3, isPublic := true }] }

/-- Two goals created on 15 January 2024 (UTC), at progress 0 and 1. -/
def halfGoals : List Goal :=
  [{ goalJan2024 with _id := 13, currentProgress := 0 },
   { goalJan2024 with _id := 14, currentProgress := 1 }]

/-- A goal with a ledger entry on 28 October 2024 at 00:10 UTC and one on 26 October 2024
at 12:00 UTC, and none in between. -/
def gapGoal : Goal :=
  { sampleGoal with
    progressUpdates := [ProgressUpdate.mk 1729944000000 10 none,
      ProgressUpdate.mk 1730074200000 20 none],
    currentProgress := 20 }

/-- Twenty goals, eleven of them at progress 100. -/
def elevenOfTwenty : List Goal :=
  List.replicate 11 { sampleGoal with currentProgress := 100, status := .completed }
    ++ List.replicate 9 sampleGoal

/-! ## Arithmetic of the status rule and of the score delta -/

theorem daysLeft_neg_iff (t now : Int) : daysLeft t now < 0 ↔ t < now := by
  unfold daysLeft
  rw [div_lt_iff₀ (by norm_num)]
  simp

theorem daysLeft_lt_seven_iff (t now : Int) : daysLeft t now < 7 ↔ t - now < 604800000 := by
  unfold daysLeft
  rw [div_lt_iff₀ (by norm_num)]
  norm_num
  exact_mod_cast Iff.rfl

theorem daysLeft_eq (t now : Int) : daysLeft t now = ((t - now : Int) : ℚ) / 86400000 := by
  unfold daysLeft
  norm_num

theorem jsRound_div_ten (p : Int) : jsRound ((p : ℚ) / 10) = (p + 5) / 10 := by
  have h : (p : ℚ) / 10 + 1 / 2 = ((p + 5 : Int) : ℚ) / ((10 : Nat) : ℚ) := by
    push_cast
    ring
  unfold jsRound
  rw [h]
  exact Rat.floor_intCast_div_natCast (p + 5) 10

theorem jsRound_div_ten_nonneg (p : Int) (h : 0 ≤ p) : 0 ≤ jsRound ((p : ℚ) / 10) := by
  rw [jsRound_div_ten]
  omega

/-! ## Status derivation -/

/-- C1: for every goal and every clock reading, `calculateStatus` is `completed` at progress
100, otherwise `not-started` at progress 0, otherwise `behind-schedule` when the exact
rational `(targetDate - now) / 86400000` is negative or the progress is below 50 with less
than 7 days left, otherwise `in-progress`. Progress 30 with the target one day in the past
is `behind-schedule`; progress 60 with the target three days ahead is `in-progress`. -/
theorem calculateStatus_rules (g : Goal) (now : Int) :
    g.calculateStatus now =
        (if g.currentProgress = 100 then Status.completed
         else if g.currentProgress = 0 then Status.notStarted
         else if ((g.targetDate - now : Int) : ℚ) / 86400000 < 0
              ∨ (g.currentProgress < 50 ∧ ((g.targetDate - now : Int) : ℚ) / 86400000 < 7) then
           Status.behindSchedule
         else Status.inProgress)
      ∧ ({ g with currentProgress := 30, targetDate := now - 86400000 } : Goal).calculateStatus now
          = Status.behindSchedule
      ∧ ({ g with currentProgress := 60, targetDate := now + 3 * 86400000 } : Goal).calculateStatus now
          = Status.inProgress := by
  refine ⟨?_, ?_, ?_⟩
  · simp only [Goal.calculateStatus, daysLeft_eq]
  · simp [Goal.calculateStatus, daysLeft_neg_iff]
  · simp [Goal.calculateStatus, daysLeft_neg_iff]

/-- C2: at progress 100 the status is `completed` for every target date and every clock
reading, the target date being past or future. -/
theorem calculateStatus_completed (g : Goal) (now : Int) (h : g.currentProgress = 100) :
    g.calculateStatus now = Status.completed := by
  simp [Goal.calculateStatus, h]

/-- Witness of C2: a goal at progress 100 whose target date (1000) lies before the clock
reading (5000). -/
theorem calculateStatus_completed_witness :
    ({ sampleGoal with currentProgress := 100 } : Goal).currentProgress = 100
      ∧ ({ sampleGoal with currentProgress := 100 } : Goal).targetDate < 5000
      ∧ ({ sampleGoal with currentProgress := 100 } : Goal).calculateStatus 5000
          = Status.completed :=
  ⟨rfl, by decide, calculateStatus_completed _ 5000 rfl⟩

/-- C3: at progress 0 the status is `not-started` for every target date and every clock
reading, also when the target date has passed. -/
theorem calculateStatus_notStarted (g : Goal) (now : Int) (h : g.currentProgress = 0) :
    g.calculateStatus now = Status.notStarted := by
  simp [Goal.calculateStatus, h]

/-- Witness of C3: a goal at progress 0 whose target date (1000) lies before the clock
reading (5000). -/
theorem calculateStatus_notStarted_witness :
    ({ sampleGoal with currentProgress := 0 } : Goal).currentProgress = 0
      ∧ ({ sampleGoal with currentProgress := 0 } : Goal).targetDate < 5000
      ∧ ({ sampleGoal with currentProgress := 0 } : Goal).calculateStatus 5000
          = Status.notStarted :=
  ⟨rfl, by decide, calculateStatus_notStarted _ 5000 rfl⟩

/-! ## The progress handler, case by case -/

theorem recordProgress_found (s : Store) (requester goalId : Nat) (body : ProgressInput)
    (now : Int) (f : Faults) (g : Goal) (p : Int)
    (hfind : s.findGoal goalId requester = some g) (hp : body.progress = some p) :
    recordProgress s requester goalId body now f =
      if f.find then (s, Response.badRequest)
      else if f.save || !(g.pushProgress p body.notes now).valid then (s, Response.badRequest)
      else if f.update then (s.saveGoal (g.pushProgress p body.notes now), Response.badRequest)
      else ((s.saveGoal (g.pushProgress p body.notes now)).incScore requester
              (jsRound ((p : ℚ) / 10)), Response.ok (g.pushProgress p body.notes now)) := by
  simp only [recordProgress, hfind, hp, Goal.pushProgress]

theorem pushProgress_valid (g : Goal) (p : Int) (notes : Option String) (now : Int) :
    (g.pushProgress p notes now).valid = true →
      0 ≤ p ∧ p ≤ 100 ∧ jsLength (notes.getD "") ≤ 300 := by
  intro h
  simp only [Goal.pushProgress, Goal.valid, Bool.and_eq_true, decide_eq_true_eq,
    List.all_append, List.all_cons, List.all_nil, Bool.and_true] at h
  obtain ⟨⟨⟨⟨_, _, _, hn⟩, _⟩, h0⟩, h100⟩ := h
  exact ⟨h0, h100, hn⟩

theorem valid_pushProgress (g : Goal) (p : Int) (notes : Option String) (now : Int)
    (hg : g.valid = true) (h0 : 0 ≤ p) (h100 : p ≤ 100)
    (hn : jsLength (notes.getD "") ≤ 300) :
    (g.pushProgress p notes now).valid = true := by
  simp only [Goal.valid, Bool.and_eq_true, decide_eq_true_eq] at hg
  simp only [Goal.pushProgress, Goal.valid, Bool.and_eq_true, decide_eq_true_eq,
    List.all_append, List.all_cons, List.all_nil, Bool.and_true]
  obtain ⟨⟨⟨⟨⟨⟨ht, htl⟩, hd⟩, hl⟩, hm⟩, _⟩, _⟩ := hg
  exact ⟨⟨⟨⟨⟨⟨ht, htl⟩, hd⟩, hl, ⟨h0, h100⟩, hn⟩, hm⟩, h0⟩, h100⟩

theorem pushProgress_id (g : Goal) (p : Int) (notes : Option String) (now : Int) :
    (g.pushProgress p notes now)._id = g._id ∧ (g.pushProgress p notes now).user = g.user :=
  ⟨rfl, rfl⟩

theorem findGoal_some (s : Store) (id owner : Nat) (g : Goal)
    (h : s.findGoal id owner = some g) : g ∈ s.goals ∧ g._id = id ∧ g.user = owner := by
  unfold Store.findGoal at h
  have h1 := List.find?_some h
  have h2 := List.mem_of_find?_eq_some h
  simp only [Bool.and_eq_true, decide_eq_true_eq] at h1
  exact ⟨h2, h1.1, h1.2⟩

theorem findGoal_saveGoal (s : Store) (id owner : Nat) (g g' : Goal)
    (h : s.findGoal id owner = some g) (hid : g'._id = id) (hu : g'.user = owner) :
    (s.saveGoal g').findGoal id owner = some g' := by
  obtain ⟨goals, users⟩ := s
  simp only [Store.findGoal, Store.saveGoal] at h ⊢
  induction goals with
  | nil => simp at h
  | cons a l ih =>
    by_cases ha : a._id = id
    · simp [List.find?, List.map, ha, hid, hu]
    · have h' : List.find? (fun g => decide (g._id = id) && decide (g.user = owner)) l = some g := by
        simpa [List.find?, ha] using h
      have hne : ¬ a._id = g'._id := by rw [hid]; exact ha
      simp [List.find?, List.map, ha, hne, ih h']

theorem findGoal_incScore (s : Store) (uid : Nat) (d : Int) (id owner : Nat) :
    (s.incScore uid d).findGoal id owner = s.findGoal id owner := rfl

theorem findUser_saveGoal (s : Store) (g : Goal) (uid : Nat) :
    (s.saveGoal g).findUser uid = s.findUser uid := rfl

theorem findUser_incScore (s : Store) (uid : Nat) (d : Int) (id : Nat) (u : User)
    (h : s.findUser id = some u) :
    (s.incScore uid d).findUser id
      = some (if id = uid then { u with score := u.score + d } else u) := by
  obtain ⟨goals, users⟩ := s
  simp only [Store.findUser, Store.incScore] at h ⊢
  induction users with
  | nil => simp at h
  | cons a l ih =>
    by_cases ha : a._id = id
    · have hau : a = u := by simpa [List.find?, ha] using h
      subst hau
      by_cases hu : a._id = uid
      · have : id = uid := by rw [← ha]; exact hu
        simp [List.find?, List.map, ha, hu, this]
      · have : ¬ id = uid := by rw [← ha]; exact hu
        simp [List.find?, List.map, ha, hu, this]
    · have h' : List.find? (fun u => decide (u._id = id)) l = some u := by
        simpa [List.find?, ha] using h
      by_cases hu : a._id = uid
      · have hui : ¬ uid = id := by rw [← hu]; exact ha
        simp [List.find?, List.map, hu, hui, ih h']
      · simp [List.find?, List.map, ha, hu, ih h']

theorem recordProgress_succeeds (s : Store) (requester goalId : Nat) (g : Goal)
    (p : Int) (notes : Option String) (now : Int)
    (hfind : s.findGoal goalId requester = some g) (hvalid : g.valid = true)
    (h0 : 0 ≤ p) (h100 : p ≤ 100) (hnotes : jsLength (notes.getD "") ≤ 300) :
    recordProgress s requester goalId ⟨some p, notes⟩ now Faults.none
      = ((s.saveGoal (g.pushProgress p notes now)).incScore requester
          (jsRound ((p : ℚ) / 10)), Response.ok (g.pushProgress p notes now)) := by
  have hv := valid_pushProgress g p notes now hvalid h0 h100 hnotes
  rw [recordProgress_found s requester goalId ⟨some p, notes⟩ now Faults.none g p hfind rfl]
  simp [Faults.none, hv]

/-! ## Progress recording -/

/-- C4: for a valid persisted goal `g` owned by the requester, a progress `p` within
`0..100` and notes of at most 300 code units, the handler succeeds when persistence does,
and whenever it succeeds the returned goal is the persisted one, its `currentProgress` is
`p` and its ledger is the old ledger followed by exactly one entry with progress `p`; no
comparison with the previous progress is made. -/
theorem recordProgress_sets_and_appends (s : Store) (requester goalId : Nat) (g : Goal)
    (p : Int) (notes : Option String) (now : Int)
    (hfind : s.findGoal goalId requester = some g) (hvalid : g.valid = true)
    (h0 : 0 ≤ p) (h100 : p ≤ 100) (hnotes : jsLength (notes.getD "") ≤ 300) :
    (∃ s' g', recordProgress s requester goalId ⟨some p, notes⟩ now Faults.none
        = (s', Response.ok g'))
      ∧ ∀ f s' g', recordProgress s requester goalId ⟨some p, notes⟩ now f
            = (s', Response.ok g') →
          g'.currentProgress = p
            ∧ g'.progressUpdates
                = g.progressUpdates ++ [ProgressUpdate.mk now p (some (notes.getD ""))]
            ∧ s'.findGoal goalId requester = some g' := by
  have hv := valid_pushProgress g p notes now hvalid h0 h100 hnotes
  obtain ⟨_, hgid, hgu⟩ := findGoal_some s goalId requester g hfind
  constructor
  · exact ⟨_, _, recordProgress_succeeds s requester goalId g p notes now hfind hvalid
      h0 h100 hnotes⟩
  · intro f s' g' hres
    rw [recordProgress_found s requester goalId ⟨some p, notes⟩ now f g p hfind rfl] at hres
    by_cases hf : f.find = true
    · simp [hf] at hres
    · by_cases hs : f.save = true
      · simp [hf, hs] at hres
      · by_cases hu : f.update = true
        · simp [hf, hs, hu, hv] at hres
        · simp only [hf, hs, hu, hv, Bool.false_eq_true, if_false, Bool.not_true,
            Bool.or_false, Bool.false_or, Prod.mk.injEq, Response.ok.injEq] at hres
          obtain ⟨hs', hg'⟩ := hres
          subst hs' hg'
          refine ⟨rfl, rfl, ?_⟩
          rw [findGoal_incScore]
          exact findGoal_saveGoal s goalId requester g _ hfind hgid hgu

/-- Witness of C4: progress 40 recorded on a goal that stands at 80. -/
theorem recordProgress_sets_and_appends_witness :
    sampleStore.findGoal 1 7 = some sampleGoal ∧ sampleGoal.currentProgress = 80
      ∧ (∃ s' g', recordProgress sampleStore 7 1 ⟨some 40, none⟩ 5 Faults.none
          = (s', Response.ok g'))
      ∧ ∀ f s' g', recordProgress sampleStore 7 1 ⟨some 40, none⟩ 5 f
            = (s', Response.ok g') →
          g'.currentProgress = 40
            ∧ g'.progressUpdates
                = sampleGoal.progressUpdates ++ [ProgressUpdate.mk 5 40 (some "")]
            ∧ s'.findGoal 1 7 = some g' :=
  ⟨by decide, by decide,
    recordProgress_sets_and_appends sampleStore 7 1 sampleGoal 40 none 5
      (by decide) (by decide) (by decide) (by decide) (by decide)⟩

theorem recordProgress_cases (s : Store) (requester goalId : Nat) (body : ProgressInput)
    (now : Int) (f : Faults) :
    recordProgress s requester goalId body now f = (s, Response.badRequest)
      ∨ (f.find = false ∧ s.findGoal goalId requester = none
          ∧ recordProgress s requester goalId body now f = (s, Response.notFound))
      ∨ ∃ g p, s.findGoal goalId requester = some g ∧ body.progress = some p
          ∧ (g.pushProgress p body.notes now).valid = true
          ∧ (recordProgress s requester goalId body now f
                = (s.saveGoal (g.pushProgress p body.notes now), Response.badRequest)
              ∨ recordProgress s requester goalId body now f
                = ((s.saveGoal (g.pushProgress p body.notes now)).incScore requester
                    (jsRound ((p : ℚ) / 10)), Response.ok (g.pushProgress p body.notes now))) := by
  by_cases hf : f.find = true
  · left
    simp [recordProgress, hf]
  · cases hfind : s.findGoal goalId requester with
    | none =>
      right; left
      refine ⟨by simpa using hf, rfl, ?_⟩
      simp [recordProgress, hf, hfind]
    | some g =>
      cases hp : body.progress with
      | none =>
        left
        simp [recordProgress, hf, hfind, hp]
      | some p =>
        rw [recordProgress_found s requester goalId body now f g p hfind hp]
        by_cases hs : f.save = true
        · left
          simp [hf, hs]
        · by_cases hv : (g.pushProgress p body.notes now).valid = true
          · right; right
            refine ⟨g, p, rfl, rfl, hv, ?_⟩
            by_cases hu : f.update = true
            · left
              simp [hf, hs, hv, hu]
            · right
              simp [hf, hs, hv, hu]
          · left
            simp [hf, hs, hv]

theorem newGoal_some (body : GoalInput) (requester newId : Nat) (now : Int) (g : Goal)
    (h : newGoal body requester newId now = some g) :
    g.user = requester ∧ g._id = newId
      ∧ g.currentProgress = body.currentProgress.getD 0
      ∧ (body.status = none → g.status = Status.notStarted)
      ∧ (body.progressUpdates = [] → g.progressUpdates = []) := by
  unfold newGoal at h
  simp only [Option.bind_eq_bind, Option.bind_eq_some, Option.pure_def, Option.some.injEq] at h
  obtain ⟨title, _, td, _, c, _, st, hst, pr, _, pu, hpu, ms, _, rfl⟩ := h
  refine ⟨rfl, rfl, rfl, ?_, ?_⟩
  · intro hs
    rw [hs] at hst
    simpa [castStatus] using hst.symm
  · intro hl
    rw [hl, List.mapM_nil] at hpu
    simpa using hpu.symm

theorem createGoal_cases (s : Store) (requester : Nat) (body : GoalInput) (newId : Nat)
    (now : Int) (f : Faults) :
    createGoal s requester body newId now f = (s, Response.badRequest)
      ∨ ∃ g, newGoal body requester newId now = some g ∧ g.valid = true
          ∧ createGoal s requester body newId now f = (s.insertGoal g, Response.created g) := by
  unfold createGoal
  cases h : newGoal body requester newId now with
  | none => left; rfl
  | some g =>
    by_cases hc : (f.save || !g.valid || s.goals.any (fun x => decide (x._id = newId))) = true
    · left; simp only [hc, if_true]
    · right
      refine ⟨g, rfl, ?_, ?_⟩
      · simp only [Bool.or_eq_true, not_or, Bool.not_eq_true', Bool.not_eq_true,
          Bool.not_eq_false] at hc
        simpa using hc.1.2
      · simp only [hc]
        rfl


theorem lastProgress_append (l : List ProgressUpdate) (u : ProgressUpdate) :
    lastProgress (l ++ [u]) = u.progress := by
  simp [lastProgress]

theorem pushProgress_ledgerConsistent (g : Goal) (p : Int) (notes : Option String)
    (now : Int) : (g.pushProgress p notes now).ledgerConsistent = true := by
  simp [Goal.ledgerConsistent, Goal.pushProgress, lastProgress_append]

theorem saveGoal_ledgerConsistent (s : Store) (g : Goal)
    (hs : s.ledgerConsistent = true) (hg : g.ledgerConsistent = true) :
    (s.saveGoal g).ledgerConsistent = true := by
  simp only [Store.ledgerConsistent, Store.saveGoal, List.all_eq_true, List.mem_map] at hs ⊢
  rintro x ⟨y, hy, rfl⟩
  by_cases h : y._id = g._id
  · simpa [h] using hg
  · simpa [h] using hs y hy

theorem insertGoal_ledgerConsistent (s : Store) (g : Goal)
    (hs : s.ledgerConsistent = true) (hg : g.ledgerConsistent = true) :
    (s.insertGoal g).ledgerConsistent = true := by
  simp only [Store.ledgerConsistent, Store.insertGoal, List.all_append, List.all_cons,
    List.all_nil, Bool.and_true, Bool.and_eq_true] at hs ⊢
  exact ⟨hs, hg⟩

theorem step_ledgerConsistent (s : Store) (e : Event) (hs : s.ledgerConsistent = true)
    (he : e.suppliesLedger = false) : (step s e).ledgerConsistent = true := by
  cases e with
  | create requester body newId now f =>
    simp only [Event.suppliesLedger, Bool.or_eq_false_iff, Bool.not_eq_false',
      List.isEmpty_iff] at he
    have hnone : body.currentProgress = none := by
      cases hb : body.currentProgress with
      | none => rfl
      | some v => simp [hb] at he
    rcases createGoal_cases s requester body newId now f with h | ⟨g, hg, _, h⟩
    · simp only [step, h]
      exact hs
    · simp only [step, h]
      obtain ⟨_, _, hcp, _, hl⟩ := newGoal_some body requester newId now g hg
      apply insertGoal_ledgerConsistent s g hs
      simp [Goal.ledgerConsistent, hcp, hnone, hl he.2, lastProgress]
  | record requester goalId body now f =>
    rcases recordProgress_cases s requester goalId body now f with
      h | ⟨_, _, h⟩ | ⟨g, p, _, _, _, h | h⟩
    · simp only [step, h]
      exact hs
    · simp only [step, h]
      exact hs
    · simp only [step, h]
      exact saveGoal_ledgerConsistent s _ hs (pushProgress_ledgerConsistent g p body.notes now)
    · simp only [step, h]
      exact saveGoal_ledgerConsistent s _ hs (pushProgress_ledgerConsistent g p body.notes now)

/-! ## The ledger invariant -/

/-- C5, as stated, fails: a creation request whose body carries `currentProgress: 50`
persists a goal at progress 50 with an empty ledger. -/
theorem ledgerConsistent_fails_supplied_progress :
    (run ⟨[], []⟩
        [Event.create 7 { sampleBody with currentProgress := some 50 } 1 0 Faults.none]
      ).ledgerConsistent = false := by
  decide

/-- C5, amended: starting from a store whose goals satisfy the ledger invariant (the empty
collection among them), after any sequence of creation requests that carry neither
`currentProgress` nor `progressUpdates` and of progress requests, successful or failing,
every persisted goal's `currentProgress` is the progress of its last ledger entry, or 0 for
an empty ledger. -/
theorem ledgerConsistent_run (s : Store) (events : List Event)
    (hs : s.ledgerConsistent = true) (hev : ∀ e ∈ events, e.suppliesLedger = false) :
    (run s events).ledgerConsistent = true := by
  induction events generalizing s with
  | nil => exact hs
  | cons e es ih =>
    simp only [run, List.foldl_cons]
    apply ih
    · exact step_ledgerConsistent s e hs (hev e (List.mem_cons_self e es))
    · intro e' he'
      exact hev e' (List.mem_cons_of_mem e he')

/-- Witness of C5: a creation, a progress update to 80, a rejected update and an update down
to 40, from a store without goals. -/
theorem ledgerConsistent_run_witness :
    (Store.mk [] [sampleUser]).ledgerConsistent = true
      ∧ (∀ e ∈ sampleEvents, e.suppliesLedger = false)
      ∧ (run (Store.mk [] [sampleUser]) sampleEvents).ledgerConsistent = true :=
  ⟨by decide, by decide,
    ledgerConsistent_run (Store.mk [] [sampleUser]) sampleEvents (by decide) (by decide)⟩

/-! ## Goal creation -/

/-- C6, as stated, fails: a body that carries `currentProgress: 50`, `status: completed` and
one ledger entry is accepted, and the created goal keeps all three. -/
theorem createGoal_keeps_supplied_fields :
    createGoal ⟨[], []⟩ 7 suppliedBody 1 0 Faults.none
        = (⟨[suppliedGoal], []⟩, Response.created suppliedGoal)
      ∧ suppliedGoal.currentProgress = 50 ∧ suppliedGoal.status = Status.completed
      ∧ suppliedGoal.progressUpdates = [ProgressUpdate.mk 0 30 none] := by
  decide

/-- C6, amended: for every accepted request body that carries no `currentProgress`, no
`status` and no `progressUpdates` of its own, the created goal is persisted with
`currentProgress = 0`, status `not-started` and an empty ledger. -/
theorem createGoal_defaults (s : Store) (requester : Nat) (body : GoalInput) (newId : Nat)
    (now : Int) (f : Faults) (s' : Store) (g : Goal)
    (hp : body.currentProgress = none) (hst : body.status = none)
    (hl : body.progressUpdates = [])
    (hres : createGoal s requester body newId now f = (s', Response.created g)) :
    g.currentProgress = 0 ∧ g.status = Status.notStarted ∧ g.progressUpdates = []
      ∧ g ∈ s'.goals := by
  rcases createGoal_cases s requester body newId now f with h | ⟨g₀, hg₀, _, h⟩
  · rw [h] at hres
    simp at hres
  · rw [h] at hres
    simp only [Prod.mk.injEq, Response.created.injEq] at hres
    obtain ⟨hs', hg⟩ := hres
    subst hs' hg
    obtain ⟨_, _, hcp, hstatus, hledger⟩ := newGoal_some body requester newId now g₀ hg₀
    refine ⟨by rw [hcp, hp]; rfl, hstatus hst, hledger hl, ?_⟩
    simp [Store.insertGoal]

/-- Witness of C6: the body `sampleBody`, which carries a title and a target date only. -/
theorem createGoal_defaults_witness :
    sampleBody.currentProgress = none ∧ sampleBody.status = none
      ∧ sampleBody.progressUpdates = []
      ∧ createGoal ⟨[], []⟩ 7 sampleBody 1 0 Faults.none
          = (⟨[freshGoal], []⟩, Response.created freshGoal)
      ∧ freshGoal.currentProgress = 0 ∧ freshGoal.status = Status.notStarted
      ∧ freshGoal.progressUpdates = [] ∧ freshGoal ∈ (Store.mk [freshGoal] []).goals :=
  ⟨rfl, rfl, rfl, by decide,
    createGoal_defaults ⟨[], []⟩ 7 sampleBody 1 0 Faults.none ⟨[freshGoal], []⟩ freshGoal
      rfl rfl rfl (by decide)⟩

/-! ## Score accrual -/

/-- C7: when a progress request succeeds with progress `p`, the requester's score goes from
its previous value `u.score` to `u.score + Math.round(p / 10)`, where `Math.round(p / 10)`
is `floor((p + 5) / 10)`; the delta is added to the previous score and is a function of `p`
alone. For `p = 47` the score goes up by 5. -/
theorem recordProgress_score (s : Store) (requester goalId : Nat) (body : ProgressInput)
    (now : Int) (f : Faults) (s' : Store) (g' : Goal) (u : User)
    (hres : recordProgress s requester goalId body now f = (s', Response.ok g'))
    (hu : s.findUser requester = some u) :
    ∃ p, body.progress = some p ∧ 0 ≤ p ∧ p ≤ 100
      ∧ s'.findUser requester = some { u with score := u.score + jsRound ((p : ℚ) / 10) }
      ∧ jsRound ((p : ℚ) / 10) = (p + 5) / 10
      ∧ (p = 47 → s'.findUser requester = some { u with score := u.score + 5 }) := by
  rcases recordProgress_cases s requester goalId body now f with
    h | ⟨_, _, h⟩ | ⟨g, p, _, hp, hv, h | h⟩
  · rw [h] at hres; simp at hres
  · rw [h] at hres; simp at hres
  · rw [h] at hres; simp at hres
  · rw [h] at hres
    simp only [Prod.mk.injEq, Response.ok.injEq] at hres
    obtain ⟨hs', _⟩ := hres
    obtain ⟨h0, h100, _⟩ := pushProgress_valid g p body.notes now hv
    have hfu : s'.findUser requester
        = some { u with score := u.score + jsRound ((p : ℚ) / 10) } := by
      rw [← hs', findUser_incScore _ requester _ requester u
        (by rw [findUser_saveGoal]; exact hu)]
      simp
    refine ⟨p, hp, h0, h100, hfu, jsRound_div_ten p, ?_⟩
    intro h47
    rw [hfu, jsRound_div_ten, h47]
    rfl

/-- Witness of C7: progress 47 recorded by the user whose score is 3 brings the score to 8. -/
theorem recordProgress_score_witness :
    sampleStore.findUser 7 = some sampleUser ∧ sampleUser.score = 3
      ∧ ∃ s' g', recordProgress sampleStore 7 1 ⟨some 47, none⟩ 5 Faults.none
            = (s', Response.ok g')
          ∧ s'.findUser 7 = some { sampleUser with score := 8 } := by
  refine ⟨by decide, by decide, _, _,
    recordProgress_succeeds sampleStore 7 1 sampleGoal 47 none 5
      (by decide) (by decide) (by decide) (by decide) (by decide), ?_⟩
  obtain ⟨p, hp, _, _, _, _, h47⟩ :=
    recordProgress_score sampleStore 7 1 ⟨some 47, none⟩ 5 Faults.none _ _ sampleUser
      (recordProgress_succeeds sampleStore 7 1 sampleGoal 47 none 5
        (by decide) (by decide) (by decide) (by decide) (by decide))
      (by decide)
  have hp47 : p = 47 := by
    simp only [Option.some.injEq] at hp
    exact hp.symm
  exact h47 hp47

theorem step_score_le (s : Store) (e : Event) (uid : Nat) (u : User)
    (hu : s.findUser uid = some u) :
    ∃ u', (step s e).findUser uid = some u' ∧ u.score ≤ u'.score := by
  cases e with
  | create requester body newId now f =>
    rcases createGoal_cases s requester body newId now f with h | ⟨g, _, _, h⟩
    · exact ⟨u, by simp only [step, h]; exact hu, le_refl _⟩
    · exact ⟨u, by simp only [step, h]; exact hu, le_refl _⟩
  | record requester goalId body now f =>
    rcases recordProgress_cases s requester goalId body now f with
      h | ⟨_, _, h⟩ | ⟨g, p, _, _, hv, h | h⟩
    · exact ⟨u, by simp only [step, h]; exact hu, le_refl _⟩
    · exact ⟨u, by simp only [step, h]; exact hu, le_refl _⟩
    · exact ⟨u, by simp only [step, h]; exact hu, le_refl _⟩
    · obtain ⟨h0, _, _⟩ := pushProgress_valid g p body.notes now hv
      have hd := jsRound_div_ten_nonneg p h0
      have hfu := findUser_incScore (s.saveGoal (g.pushProgress p body.notes now)) requester
        (jsRound ((p : ℚ) / 10)) uid u (by rw [findUser_saveGoal]; exact hu)
      refine ⟨_, by simp only [step, h]; exact hfu, ?_⟩
      by_cases hid : uid = requester
      · simp only [hid, if_true]
        omega
      · simp only [hid, if_false]
        exact le_refl _

/-- C8: over every sequence of requests to the goal handlers (progress that goes down,
rejected and failing calls included), every user's score after the sequence is at least the
score before it; a sequence of one request gives the same for each single call. -/
theorem score_never_decreases (s : Store) (events : List Event) (uid : Nat) (u : User)
    (hu : s.findUser uid = some u) :
    ∃ u', (run s events).findUser uid = some u' ∧ u.score ≤ u'.score := by
  induction events generalizing s u with
  | nil => exact ⟨u, hu, le_refl _⟩
  | cons e es ih =>
    obtain ⟨u₁, hu₁, hle₁⟩ := step_score_le s e uid u hu
    obtain ⟨u₂, hu₂, hle₂⟩ := ih (step s e) u₁ hu₁
    exact ⟨u₂, by simpa only [run, List.foldl_cons] using hu₂, le_trans hle₁ hle₂⟩

/-- Witness of C8: the score of user 7 over an update to 80, a rejected update and an update
down to 40. -/
theorem score_never_decreases_witness :
    (Store.mk [] [sampleUser]).findUser 7 = some sampleUser
      ∧ ∃ u', (run (Store.mk [] [sampleUser]) sampleEvents).findUser 7 = some u'
          ∧ sampleUser.score ≤ u'.score :=
  ⟨by decide, score_never_decreases (Store.mk [] [sampleUser]) sampleEvents 7 sampleUser
    (by decide)⟩

/-! ## Failing progress requests -/

/-- C9: when no persisted goal has the given identifier together with the requester as
owner (there is no such goal, or it belongs to another user), the progress handler leaves
the whole store as it was, and answers 404 unless the lookup itself is rejected. -/
theorem recordProgress_notFound (s : Store) (requester goalId : Nat) (body : ProgressInput)
    (now : Int) (f : Faults)
    (hnone : ∀ g ∈ s.goals, ¬ (g._id = goalId ∧ g.user = requester)) :
    (recordProgress s requester goalId body now f).1 = s
      ∧ (f.find = false →
          recordProgress s requester goalId body now f = (s, Response.notFound)) := by
  have hfind : s.findGoal goalId requester = none := by
    simp only [Store.findGoal, List.find?_eq_none, Bool.and_eq_true, decide_eq_true_eq]
    exact hnone
  constructor
  · by_cases hf : f.find = true
    · simp [recordProgress, hf]
    · simp [recordProgress, hf, hfind]
  · intro hf
    simp [recordProgress, hf, hfind]

/-- Witness of C9: user 8 addresses goal 1, which belongs to user 7. -/
theorem recordProgress_notFound_witness :
    (∀ g ∈ sampleStore.goals, ¬ (g._id = 1 ∧ g.user = 8))
      ∧ (recordProgress sampleStore 8 1 ⟨some 40, none⟩ 5 Faults.none).1 = sampleStore
      ∧ (Faults.none.find = false →
          recordProgress sampleStore 8 1 ⟨some 40, none⟩ 5 Faults.none
            = (sampleStore, Response.notFound)) :=
  ⟨by decide, recordProgress_notFound sampleStore 8 1 ⟨some 40, none⟩ 5 Faults.none
    (by decide)⟩

/-- C10: when the body has no `progress`, or a `progress` below 0 or above 100, or notes
longer than 300 code units, the progress handler fails (400, or 404 when the goal is not
found) and the whole store, goals and users, is as before the call. -/
theorem recordProgress_invalid (s : Store) (requester goalId : Nat) (body : ProgressInput)
    (now : Int) (f : Faults)
    (hbad : body.progress = none ∨ (∃ p, body.progress = some p ∧ (p < 0 ∨ 100 < p))
      ∨ ∃ n, body.notes = some n ∧ 300 < jsLength n) :
    recordProgress s requester goalId body now f = (s, Response.badRequest)
      ∨ recordProgress s requester goalId body now f = (s, Response.notFound) := by
  rcases recordProgress_cases s requester goalId body now f with
    h | ⟨_, _, h⟩ | ⟨g, p, _, hp, hv, _⟩
  · exact Or.inl h
  · exact Or.inr h
  · exfalso
    obtain ⟨h0, h100, hn⟩ := pushProgress_valid g p body.notes now hv
    rcases hbad with hnone | ⟨q, hq, hrange⟩ | ⟨n, hnotes, hlong⟩
    · rw [hnone] at hp
      simp at hp
    · rw [hq] at hp
      simp only [Option.some.injEq] at hp
      subst hp
      omega
    · rw [hnotes] at hn
      simp only [Option.getD_some] at hn
      omega

/-- Witness of C10: progress 180 sent for a goal that stands at 80. -/
theorem recordProgress_invalid_witness :
    ((ProgressInput.mk (some 180) none).progress = none
        ∨ (∃ p, (ProgressInput.mk (some 180) none).progress = some p ∧ (p < 0 ∨ 100 < p))
        ∨ ∃ n, (ProgressInput.mk (some 180) none).notes = some n ∧ 300 < jsLength n)
      ∧ (recordProgress sampleStore 7 1 ⟨some 180, none⟩ 5 Faults.none
            = (sampleStore, Response.badRequest)
          ∨ recordProgress sampleStore 7 1 ⟨some 180, none⟩ 5 Faults.none
            = (sampleStore, Response.notFound)) :=
  ⟨Or.inr (Or.inl ⟨180, rfl, Or.inr (by decide)⟩),
    recordProgress_invalid sampleStore 7 1 ⟨some 180, none⟩ 5 Faults.none
      (Or.inr (Or.inl ⟨180, rfl, Or.inr (by decide)⟩))⟩

/-! ## Status after a progress update -/

/-- C11: whenever a progress request succeeds with progress `p` at clock reading `now`, the
persisted goal keeps its target date and its status is `calculateStatus` evaluated on the
new progress `p`, that target date and `now`. -/
theorem recordProgress_status (s : Store) (requester goalId : Nat) (body : ProgressInput)
    (now : Int) (f : Faults) (s' : Store) (g' : Goal)
    (hres : recordProgress s requester goalId body now f = (s', Response.ok g')) :
    ∃ g p, s.findGoal goalId requester = some g ∧ body.progress = some p
      ∧ g'.targetDate = g.targetDate ∧ g'.currentProgress = p
      ∧ g'.status = ({ g with currentProgress := p } : Goal).calculateStatus now
      ∧ g'.status = g'.calculateStatus now
      ∧ s'.findGoal goalId requester = some g' := by
  rcases recordProgress_cases s requester goalId body now f with
    h | ⟨_, _, h⟩ | ⟨g, p, hfind, hp, _, h | h⟩
  · rw [h] at hres; simp at hres
  · rw [h] at hres; simp at hres
  · rw [h] at hres; simp at hres
  · rw [h] at hres
    simp only [Prod.mk.injEq, Response.ok.injEq] at hres
    obtain ⟨hs', hg'⟩ := hres
    subst hs' hg'
    obtain ⟨_, hgid, hgu⟩ := findGoal_some s goalId requester g hfind
    refine ⟨g, p, hfind, hp, rfl, rfl, rfl, rfl, ?_⟩
    rw [findGoal_incScore]
    exact findGoal_saveGoal s goalId requester g _ hfind hgid hgu

/-- Witness of C11: progress 40 at time 5 on a goal stored as `in-progress` with target
date 1000: the persisted status is `behind-schedule`. -/
theorem recordProgress_status_witness :
    sampleGoal.status = Status.inProgress
      ∧ ∃ s' g', recordProgress sampleStore 7 1 ⟨some 40, none⟩ 5 Faults.none
            = (s', Response.ok g')
          ∧ g'.status = Status.behindSchedule
          ∧ ∃ g p, sampleStore.findGoal 1 7 = some g
              ∧ (ProgressInput.mk (some 40) none).progress = some p
              ∧ g'.targetDate = g.targetDate ∧ g'.currentProgress = p
              ∧ g'.status = ({ g with currentProgress := p } : Goal).calculateStatus 5
              ∧ g'.status = g'.calculateStatus 5
              ∧ s'.findGoal 1 7 = some g' := by
  have hres := recordProgress_succeeds sampleStore 7 1 sampleGoal 40 none 5
    (by decide) (by decide) (by decide) (by decide) (by decide)
  refine ⟨rfl, _, _, hres, ?_,
    recordProgress_status sampleStore 7 1 ⟨some 40, none⟩ 5 Faults.none _ _ hres⟩
  simp [Goal.pushProgress, Goal.calculateStatus, sampleGoal, daysLeft_neg_iff,
    daysLeft_lt_seven_iff]

/-! ## Validation at goal creation -/

/-- C12, as stated, fails: a supplied title of 103 code units, `Run` followed by 100 spaces,
is accepted, and the goal is persisted under the trimmed title. -/
theorem createGoal_accepts_padded_title :
    100 < jsLength paddedTitle
      ∧ createGoal ⟨[], []⟩ 7 { sampleBody with title := some paddedTitle } 1 0 Faults.none
          = (⟨[freshGoal], []⟩, Response.created freshGoal) := by
  decide

/-- C12, amended: goal creation answers 400 and leaves the store as it was whenever the
supplied title, once trimmed of surrounding white space, is longer than 100 code units, the
supplied description is longer than 500 code units, or the target date is absent. -/
theorem createGoal_rejects (s : Store) (requester : Nat) (body : GoalInput) (newId : Nat)
    (now : Int) (f : Faults)
    (hbad : (∃ t, body.title = some t ∧ 100 < jsLength (jsTrim t))
      ∨ (∃ d, body.description = some d ∧ 500 < jsLength d)
      ∨ body.targetDate = none) :
    createGoal s requester body newId now f = (s, Response.badRequest) := by
  rcases createGoal_cases s requester body newId now f with h | ⟨g, hg, hv, _⟩
  · exact h
  · exfalso
    unfold newGoal at hg
    simp only [Option.bind_eq_bind, Option.bind_eq_some, Option.pure_def,
      Option.some.injEq] at hg
    obtain ⟨title, ht, td, htd, c, _, st, _, pr, _, pu, _, ms, _, rfl⟩ := hg
    simp only [Goal.valid, Bool.and_eq_true, decide_eq_true_eq] at hv
    obtain ⟨⟨⟨⟨⟨⟨_, htl⟩, hd⟩, _⟩, _⟩, _⟩, _⟩ := hv
    rcases hbad with ⟨t, hbt, hlong⟩ | ⟨d, hbd, hlong⟩ | hnone
    · rw [hbt] at ht
      simp only [Option.some.injEq] at ht
      subst ht
      omega
    · rw [hbd] at hd
      simp only [decide_eq_true_eq] at hd
      omega
    · rw [hnone] at htd
      simp at htd

/-- Witness of C12: a title of 101 code units without white space. -/
theorem createGoal_rejects_witness :
    ((∃ t, ({ sampleBody with title := some longTitle } : GoalInput).title = some t
          ∧ 100 < jsLength (jsTrim t))
        ∨ (∃ d, ({ sampleBody with title := some longTitle } : GoalInput).description = some d
          ∧ 500 < jsLength d)
        ∨ ({ sampleBody with title := some longTitle } : GoalInput).targetDate = none)
      ∧ createGoal sampleStore 7 { sampleBody with title := some longTitle } 2 0 Faults.none
          = (sampleStore, Response.badRequest) :=
  ⟨Or.inl ⟨longTitle, rfl, by decide⟩,
    createGoal_rejects sampleStore 7 { sampleBody with title := some longTitle } 2 0
      Faults.none (Or.inl ⟨longTitle, rfl, by decide⟩)⟩

/-! ## The partner-request handlers, case by case -/

theorem findUser_map (s : Store) (upd : User → User) (hupd : ∀ u, (upd u)._id = u._id)
    (id : Nat) :
    (Store.mk s.goals (s.users.map upd)).findUser id = (s.findUser id).map upd := by
  obtain ⟨goals, users⟩ := s
  simp only [Store.findUser]
  induction users with
  | nil => rfl
  | cons a l ih =>
    by_cases ha : a._id = id
    · simp [List.find?, List.map, ha, hupd]
    · simp only [List.map, List.find?, hupd, ha, decide_False]
      exact ih

theorem findUser_some (s : Store) (id : Nat) (u : User) (h : s.findUser id = some u) :
    u ∈ s.users ∧ u._id = id := by
  unfold Store.findUser at h
  have h1 := List.find?_some h
  have h2 := List.mem_of_find?_eq_some h
  simp only [decide_eq_true_eq] at h1
  exact ⟨h2, h1⟩

theorem findUser_saveUser (s : Store) (user : User) (id : Nat) :
    (s.saveUser user).findUser id
      = (s.findUser id).map (fun u => if u._id = user._id then user else u) := by
  apply findUser_map s (fun u => if u._id = user._id then user else u)
  intro u
  by_cases h : u._id = user._id
  · simp [h]
  · simp [h]

theorem findUser_saveUser_self (s : Store) (user u : User)
    (h : s.findUser user._id = some u) : (s.saveUser user).findUser user._id = some user := by
  rw [findUser_saveUser, h]
  simp [(findUser_some s user._id u h).2]

theorem findUser_saveUser_ne (s : Store) (user : User) (id : Nat) (h : id ≠ user._id) :
    (s.saveUser user).findUser id = s.findUser id := by
  rw [findUser_saveUser]
  cases hu : s.findUser id with
  | none => rfl
  | some u =>
    have := (findUser_some s id u hu).2
    simp [this, h]

theorem findUser_setPartner (s : Store) (a p id : Nat) :
    (s.setPartner a p).findUser id
      = (s.findUser id).map (fun u =>
          if u._id = a then { u with accountabilityPartner := some p } else u) := by
  apply findUser_map s
    (fun u => if u._id = a then { u with accountabilityPartner := some p } else u)
  intro u
  by_cases h : u._id = a
  · simp [h]
  · simp [h]

theorem find?_objectIdSelf (l : List PartnerRequest) :
    l.find? (fun req => decide (req.user = objectIdSelf req.user)) = l.head? := by
  cases l with
  | nil => rfl
  | cons a l => simp [List.find?, objectIdSelf]

theorem sendRequest_cases (s : Store) (requester target newId : Nat) (now : Int)
    (f : Faults) :
    (sendRequest s requester target newId now f).1 = s
        ∧ (sendRequest s requester target newId now f).2 ≠ UserResponse.sent
      ∨ ∃ tu, s.findUser target = some tu ∧ tu.partnerRequests = []
          ∧ sendRequest s requester target newId now f
            = (s.saveUser { tu with
                partnerRequests := [PartnerRequest.mk newId requester RequestStatus.pending now] },
               UserResponse.sent) := by
  unfold sendRequest
  by_cases hf : f.find = true
  · left; simp [hf]
  · cases hfind : s.findUser target with
    | none => left; simp [hf]
    | some tu =>
      simp only [find?_objectIdSelf]
      cases hl : tu.partnerRequests with
      | cons r l => left; simp [hf]
      | nil =>
        by_cases hs : f.save = true
        · left; simp [hf, hs]
        · right
          refine ⟨tu, rfl, hl, ?_⟩
          simp [hf, hs]

theorem sendRequest_nonempty (s : Store) (requester target newId : Nat) (now : Int)
    (f : Faults) (tu : User) (hfind : s.findUser target = some tu)
    (hne : tu.partnerRequests ≠ []) :
    (sendRequest s requester target newId now f).1 = s
      ∧ (f.find = false →
          sendRequest s requester target newId now f = (s, UserResponse.alreadySent)) := by
  unfold sendRequest
  rw [hfind]
  simp only [find?_objectIdSelf]
  cases hl : tu.partnerRequests with
  | nil => exact absurd hl hne
  | cons r l =>
    by_cases hf : f.find = true
    · simp [hf]
    · simp [hf]

theorem respond_accept (s : Store) (requester requestId : Nat) (f : Faults) (u : User)
    (r : PartnerRequest) (hu : s.findUser requester = some u)
    (hr : u.partnerRequests.find? (fun x => decide (x._id = requestId)) = some r) :
    respond s requester requestId ⟨some "accepted"⟩ f =
      if f.find then (s, UserResponse.serverError)
      else if f.update then (s, UserResponse.serverError)
      else if f.save then (s.setPartner r.user requester, UserResponse.serverError)
      else ((s.setPartner r.user requester).saveUser (u.accepting requestId r.user),
            UserResponse.responded RequestStatus.accepted) := by
  simp [respond, hu, hr, castRequestStatus, User.withStatus, User.accepting]

theorem respond_other (s : Store) (requester requestId : Nat) (body : RespondInput)
    (f : Faults) (u : User) (r : PartnerRequest) (hu : s.findUser requester = some u)
    (hr : u.partnerRequests.find? (fun x => decide (x._id = requestId)) = some r)
    (hb : body.status ≠ some "accepted") :
    respond s requester requestId body f =
      if f.find then (s, UserResponse.serverError)
      else match castRequestStatus body.status with
        | none => (s, UserResponse.serverError)
        | some st =>
          if f.save then (s, UserResponse.serverError)
          else (s.saveUser (u.withStatus requestId st), UserResponse.responded st) := by
  simp only [respond, hu, hr, hb, decide_False, Bool.false_and, Bool.false_eq_true, if_false,
    User.withStatus]

/-! ## Sending a partner request -/

/-- C13 fails on the code: user 2 holds one request, from user 3, and none from user 1; the
request of user 1 to user 2 is answered `Request already sent` and nothing is appended. -/
theorem sendRequest_blocked_by_other_sender :
    cyAskedBob.findUser 2
        = some { plainUser 2 "bob" with
            partnerRequests := [PartnerRequest.mk 10 3 RequestStatus.pending 0] }
      ∧ sendRequest cyAskedBob 1 2 11 5 Faults.none = (cyAskedBob, UserResponse.alreadySent) := by
  decide

/-- C14: when the target's collection already holds a request from the requester, whatever
its status, the handler leaves the store as it was and answers `Request already sent` (the
server error only if the lookup itself is rejected). If moreover the store is the one left by
a successful request of the same requester to the same target, the target holds exactly one
request from the requester. -/
theorem sendRequest_duplicate (s : Store) (a b newId : Nat) (now : Int) (f : Faults)
    (ub : User) (hb : s.findUser b = some ub)
    (hdup : ∃ r ∈ ub.partnerRequests, r.user = a) :
    (sendRequest s a b newId now f).1 = s
      ∧ (f.find = false → sendRequest s a b newId now f = (s, UserResponse.alreadySent))
      ∧ ∀ s₀ id₀ now₀ f₀, sendRequest s₀ a b id₀ now₀ f₀ = (s, UserResponse.sent) →
          (ub.partnerRequests.filter (fun r => decide (r.user = a))).length = 1 := by
  have hne : ub.partnerRequests ≠ [] := by
    obtain ⟨r, hr, _⟩ := hdup
    exact List.ne_nil_of_mem hr
  obtain ⟨h1, h2⟩ := sendRequest_nonempty s a b newId now f ub hb hne
  refine ⟨h1, h2, ?_⟩
  intro s₀ id₀ now₀ f₀ hsent
  rcases sendRequest_cases s₀ a b id₀ now₀ f₀ with ⟨_, hns⟩ | ⟨tu, htu, _, heq⟩
  · rw [hsent] at hns
    exact absurd rfl hns
  · rw [heq] at hsent
    simp only [Prod.mk.injEq, and_true] at hsent
    have hid : tu._id = b := (findUser_some s₀ b tu htu).2
    subst hid
    have hfb := findUser_saveUser_self s₀
      { tu with partnerRequests := [PartnerRequest.mk id₀ a RequestStatus.pending now₀] }
      tu htu
    rw [hsent] at hfb
    simp only [hb] at hfb
    simp only [Option.some.injEq] at hfb
    rw [hfb]
    simp

/-- Witness of C14: user 1 asks user 2 a second time. -/
theorem sendRequest_duplicate_witness :
    annAskedBob.findUser 2
        = some { plainUser 2 "bob" with
            partnerRequests := [PartnerRequest.mk 10 1 RequestStatus.pending 0] }
      ∧ sendRequest threeUsers 1 2 10 0 Faults.none = (annAskedBob, UserResponse.sent)
      ∧ sendRequest annAskedBob 1 2 11 5 Faults.none = (annAskedBob, UserResponse.alreadySent)
      ∧ (({ plainUser 2 "bob" with
            partnerRequests := [PartnerRequest.mk 10 1 RequestStatus.pending 0] }
          : User).partnerRequests.filter (fun r => decide (r.user = 1))).length = 1 := by
  have h := sendRequest_duplicate annAskedBob 1 2 11 5 Faults.none
    { plainUser 2 "bob" with
      partnerRequests := [PartnerRequest.mk 10 1 RequestStatus.pending 0] }
    (by decide) ⟨PartnerRequest.mk 10 1 RequestStatus.pending 0, by decide, rfl⟩
  exact ⟨by decide, by decide, h.2.1 rfl, h.2.2 threeUsers 10 0 Faults.none (by decide)⟩

theorem partnerOf_eq (s : Store) (id : Nat) (u : User) (h : s.findUser id = some u) :
    s.partnerOf id = u.accountabilityPartner := by
  simp [Store.partnerOf, h]

theorem findUser_accept (s : Store) (a b : Nat) (u' ub : User) (hid : u'._id = b)
    (hb : s.findUser b = some ub) (x : Nat) :
    ((s.setPartner a b).saveUser u').findUser x
      = if x = b then some u'
        else (s.findUser x).map (fun v =>
          if v._id = a then { v with accountabilityPartner := some b } else v) := by
  rw [findUser_saveUser, findUser_setPartner]
  have hkeep : ∀ v : User,
      (if v._id = a then { v with accountabilityPartner := some b } else v)._id = v._id := by
    intro v
    by_cases h : v._id = a
    · simp only [h, if_true]
    · simp only [h, if_false]
  by_cases hx : x = b
  · subst hx
    have hub := (findUser_some s x ub hb).2
    rw [hb]
    simp only [Option.map_some', hkeep]
    simp only [hub, hid, if_true]
  · cases hfx : s.findUser x with
    | none => simp only [Option.map_none', hx, if_false]
    | some v =>
      have hv := (findUser_some s x v hfx).2
      have hne : ¬ v._id = u'._id := by rw [hid, hv]; exact hx
      simp only [Option.map_some', hkeep, hne, hx, if_false]

theorem partnerOf_accept (s : Store) (a b : Nat) (u' ub : User) (hid : u'._id = b)
    (hb : s.findUser b = some ub) (x : Nat) :
    ((s.setPartner a b).saveUser u').partnerOf x
      = if x = b then u'.accountabilityPartner
        else if x = a then (s.findUser a).map (fun _ => b)
        else s.partnerOf x := by
  rw [Store.partnerOf, findUser_accept s a b u' ub hid hb x]
  by_cases hx : x = b
  · simp [hx]
  · simp only [hx, if_false]
    cases hfx : s.findUser x with
    | none =>
      by_cases hxa : x = a
      · subst hxa; simp [hfx]
      · simp [hxa, Store.partnerOf, hfx]
    | some v =>
      have hv := (findUser_some s x v hfx).2
      by_cases hxa : x = a
      · subst hxa; simp [hfx, hv]
      · have : ¬ v._id = a := by rw [hv]; exact hxa
        simp [hxa, Store.partnerOf, hfx, this]

theorem partnerOf_saveUser (s : Store) (u' ub : User) (hb : s.findUser u'._id = some ub)
    (hp : u'.accountabilityPartner = ub.accountabilityPartner) (x : Nat) :
    (s.saveUser u').partnerOf x = s.partnerOf x := by
  by_cases hx : x = u'._id
  · subst hx
    rw [partnerOf_eq _ _ _ (findUser_saveUser_self s u' ub hb), partnerOf_eq _ _ _ hb, hp]
  · rw [Store.partnerOf, findUser_saveUser_ne s u' x hx]
    rfl

theorem sendRequest_sent (s : Store) (a b newId : Nat) (now : Int) (f : Faults)
    (s₁ : Store) (h : sendRequest s a b newId now f = (s₁, UserResponse.sent)) :
    ∃ tu tu', s.findUser b = some tu ∧ tu.partnerRequests = [] ∧ s₁ = s.saveUser tu'
      ∧ tu'._id = b ∧ tu'.accountabilityPartner = tu.accountabilityPartner
      ∧ tu'.partnerRequests = [PartnerRequest.mk newId a RequestStatus.pending now]
      ∧ s₁.findUser b = some tu' ∧ ∀ x, x ≠ b → s₁.findUser x = s.findUser x := by
  rcases sendRequest_cases s a b newId now f with ⟨_, hns⟩ | ⟨tu, htu, hnil, heq⟩
  · rw [h] at hns
    exact absurd rfl hns
  · rw [heq] at h
    simp only [Prod.mk.injEq, and_true] at h
    have hid : tu._id = b := (findUser_some s b tu htu).2
    refine ⟨tu, { tu with
      partnerRequests := [PartnerRequest.mk newId a RequestStatus.pending now] },
      htu, hnil, h.symm, hid, rfl, rfl, ?_, ?_⟩
    · have := findUser_saveUser_self s
        { tu with partnerRequests := [PartnerRequest.mk newId a RequestStatus.pending now] }
        tu (by rw [hid]; exact htu)
      rw [h] at this
      rw [← hid]
      exact this
    · intro x hx
      rw [← h]
      exact findUser_saveUser_ne s _ x (by rw [hid]; exact hx)

/-! ## Accepting a partner request -/

/-- C15: from any store in which user `a` exists, after a successful request of `a` to `b`
under identifier `newId`, the acceptance of that request by `b`, with no persistence call
rejecting, succeeds, and afterwards `a` names `b` as partner, `b` names `a`, and the request
is stored with status `accepted`. -/
theorem accept_links_both (s : Store) (a b newId : Nat) (now : Int) (f : Faults)
    (s₁ : Store) (ua : User) (ha : s.findUser a = some ua)
    (hsend : sendRequest s a b newId now f = (s₁, UserResponse.sent)) :
    ∃ s₂, respond s₁ b newId ⟨some "accepted"⟩ Faults.none
          = (s₂, UserResponse.responded RequestStatus.accepted)
      ∧ s₂.partnerOf a = some b ∧ s₂.partnerOf b = some a
      ∧ s₂.findRequest b newId
          = some (PartnerRequest.mk newId a RequestStatus.accepted now) := by
  obtain ⟨tu, tu', _, _, _, hid, _, hreq, hfb, hother⟩ :=
    sendRequest_sent s a b newId now f s₁ hsend
  have hfind : tu'.partnerRequests.find? (fun x => decide (x._id = newId))
      = some (PartnerRequest.mk newId a RequestStatus.pending now) := by
    rw [hreq]
    simp [List.find?]
  have hresp := respond_accept s₁ b newId Faults.none tu' _ hfb hfind
  simp only [Faults.none, Bool.false_eq_true, if_false] at hresp
  have hid' : (tu'.accepting newId a)._id = b := hid
  have hfa : (s₁.findUser a).map (fun _ => b) = some b := by
    by_cases hab : a = b
    · rw [hab, hfb]; rfl
    · rw [hother a hab, ha]; rfl
  refine ⟨_, hresp, ?_, ?_, ?_⟩
  · rw [partnerOf_accept s₁ a b (tu'.accepting newId a) tu' hid' hfb a]
    by_cases hab : a = b
    · simp [hab, User.accepting]
    · simp [hab, hfa]
  · rw [partnerOf_accept s₁ a b (tu'.accepting newId a) tu' hid' hfb b]
    simp [User.accepting]
  · rw [Store.findRequest, findUser_accept s₁ a b (tu'.accepting newId a) tu' hid' hfb b]
    simp [User.accepting, User.withStatus, hreq, List.find?]

/-- Witness of C15: user 1 asks user 2, who accepts. -/
theorem accept_links_both_witness :
    threeUsers.findUser 1 = some (plainUser 1 "ann")
      ∧ sendRequest threeUsers 1 2 10 0 Faults.none = (annAskedBob, UserResponse.sent)
      ∧ ∃ s₂, respond annAskedBob 2 10 ⟨some "accepted"⟩ Faults.none
            = (s₂, UserResponse.responded RequestStatus.accepted)
          ∧ s₂.partnerOf 1 = some 2 ∧ s₂.partnerOf 2 = some 1
          ∧ s₂.findRequest 2 10 = some (PartnerRequest.mk 10 1 RequestStatus.accepted 0) :=
  ⟨by decide, by decide,
    accept_links_both threeUsers 1 2 10 0 Faults.none annAskedBob (plainUser 1 "ann")
      (by decide) (by decide)⟩

theorem find?_withStatus (l : List PartnerRequest) (rid : Nat) (st : RequestStatus)
    (x : Nat) :
    (l.map (fun r => if r._id = rid then { r with status := st } else r)).find?
        (fun r => decide (r._id = x))
      = (l.find? (fun r => decide (r._id = x))).map
          (fun r => if r._id = rid then { r with status := st } else r) := by
  induction l with
  | nil => rfl
  | cons a l ih =>
    have hkeep : (if a._id = rid then { a with status := st } else a)._id = a._id := by
      by_cases h : a._id = rid
      · simp only [h, if_true]
      · simp only [h, if_false]
    by_cases ha : a._id = x
    · subst ha
      simp [List.find?, hkeep]
    · simp only [List.map, List.find?, hkeep, ha, decide_False]
      exact ih

theorem respond_responded (s : Store) (b rid : Nat) (body : RespondInput) (f : Faults)
    (s' : Store) (st : RequestStatus)
    (h : respond s b rid body f = (s', UserResponse.responded st)) :
    ∃ ub r, s.findUser b = some ub
      ∧ ub.partnerRequests.find? (fun x => decide (x._id = rid)) = some r
      ∧ castRequestStatus body.status = some st
      ∧ ((body.status = some "accepted" ∧ st = RequestStatus.accepted
            ∧ s' = (s.setPartner r.user b).saveUser (ub.accepting rid r.user))
          ∨ (body.status ≠ some "accepted" ∧ s' = s.saveUser (ub.withStatus rid st))) := by
  cases hu : s.findUser b with
  | none => simp [respond, hu] at h
  | some ub =>
    cases hr : ub.partnerRequests.find? (fun x => decide (x._id = rid)) with
    | none =>
      by_cases hf : f.find = true
      · simp [respond, hf] at h
      · simp [respond, hu, hr, hf] at h
    | some r =>
      by_cases hb : body.status = some "accepted"
      · have hbody : body = ⟨some "accepted"⟩ := by
          cases body
          simp only [RespondInput.mk.injEq]
          exact hb
        rw [hbody, respond_accept s b rid f ub r hu hr] at h
        by_cases hf : f.find = true
        · simp [hf] at h
        · by_cases hup : f.update = true
          · simp [hf, hup] at h
          · by_cases hs : f.save = true
            · simp [hf, hup, hs] at h
            · simp only [hf, hup, hs, Bool.false_eq_true, if_false, Prod.mk.injEq,
                UserResponse.responded.injEq] at h
              refine ⟨ub, r, rfl, hr, ?_, Or.inl ⟨hb, h.2.symm, h.1.symm⟩⟩
              rw [hb, ← h.2]
              simp [castRequestStatus]
      · rw [respond_other s b rid body f ub r hu hr hb] at h
        by_cases hf : f.find = true
        · simp [hf] at h
        · cases hc : castRequestStatus body.status with
          | none => simp [hf, hc] at h
          | some st' =>
            by_cases hs : f.save = true
            · simp [hf, hc, hs] at h
            · simp only [hf, hc, hs, Bool.false_eq_true, if_false, Prod.mk.injEq,
                UserResponse.responded.injEq] at h
              refine ⟨ub, r, rfl, hr, ?_, Or.inr ⟨hb, ?_⟩⟩
              · rw [h.2]
              · rw [← h.2]
                exact h.1.symm

/-! ## Persistence failure during an acceptance -/

/-- C17, as stated, fails: when user 2 accepts the request of user 1 and the responder's
`save()` rejects, user 1 is left naming user 2 as partner while user 2 names nobody. -/
theorem accept_save_fault_one_sided :
    annAskedBob.partnerOf 1 = none ∧ annAskedBob.partnerOf 2 = none
      ∧ (respond annAskedBob 2 10 acceptBody saveFails).2 = UserResponse.serverError
      ∧ (respond annAskedBob 2 10 acceptBody saveFails).1.partnerOf 1 = some 2
      ∧ (respond annAskedBob 2 10 acceptBody saveFails).1.partnerOf 2 = none := by
  decide

/-- C17, amended: when a persistence call of an acceptance rejects, the answer is the
server error; if the lookup or the update of the requesting user rejects, the store is as
before; if those succeed and the responder's own `save()` rejects, the only write is the
requesting user's `accountabilityPartner`, set to the responder, and the responder's record
is as before. -/
theorem respond_accept_fault (s : Store) (b rid : Nat) (f : Faults) (ub : User)
    (r : PartnerRequest) (hu : s.findUser b = some ub)
    (hr : ub.partnerRequests.find? (fun x => decide (x._id = rid)) = some r)
    (hfault : f.find = true ∨ f.update = true ∨ f.save = true) :
    (respond s b rid ⟨some "accepted"⟩ f).2 = UserResponse.serverError
      ∧ ((f.find = true ∨ f.update = true) → (respond s b rid ⟨some "accepted"⟩ f).1 = s)
      ∧ (f.find = false → f.update = false →
          (respond s b rid ⟨some "accepted"⟩ f).1 = s.setPartner r.user b
            ∧ (r.user ≠ b → (s.setPartner r.user b).findUser b = some ub)
            ∧ ∀ ua, s.findUser r.user = some ua →
                (s.setPartner r.user b).findUser r.user
                  = some { ua with accountabilityPartner := some b }) := by
  rw [respond_accept s b rid f ub r hu hr]
  have hub := (findUser_some s b ub hu).2
  refine ⟨?_, ?_, ?_⟩
  · by_cases hf : f.find = true
    · simp [hf]
    · by_cases hup : f.update = true
      · simp [hf, hup]
      · have hs : f.save = true := by
          rcases hfault with h | h | h
          · exact absurd h hf
          · exact absurd h hup
          · exact h
        simp [hf, hup, hs]
  · rintro (hf | hup)
    · simp [hf]
    · by_cases hf : f.find = true
      · simp [hf]
      · simp [hf, hup]
  · intro hf hup
    have hs : f.save = true := by
      rcases hfault with h | h | h
      · rw [hf] at h; exact absurd h (by decide)
      · rw [hup] at h; exact absurd h (by decide)
      · exact h
    refine ⟨by simp [hf, hup, hs], ?_, ?_⟩
    · intro hne
      rw [findUser_setPartner, hu]
      have : ¬ ub._id = r.user := by rw [hub]; exact fun h => hne h.symm
      simp [this]
    · intro ua hua
      rw [findUser_setPartner, hua]
      simp [(findUser_some s r.user ua hua).2]

/-- Witness of C17: user 2 accepts the request of user 1 while `save()` rejects. -/
theorem respond_accept_fault_witness :
    annAskedBob.findUser 2
        = some { plainUser 2 "bob" with
            partnerRequests := [PartnerRequest.mk 10 1 RequestStatus.pending 0] }
      ∧ (respond annAskedBob 2 10 ⟨some "accepted"⟩ saveFails).2 = UserResponse.serverError
      ∧ (respond annAskedBob 2 10 ⟨some "accepted"⟩ saveFails).1
          = annAskedBob.setPartner 1 2 := by
  have h := respond_accept_fault annAskedBob 2 10 saveFails
    { plainUser 2 "bob" with
      partnerRequests := [PartnerRequest.mk 10 1 RequestStatus.pending 0] }
    (PartnerRequest.mk 10 1 RequestStatus.pending 0) (by decide) (by decide)
    (Or.inr (Or.inr rfl))
  exact ⟨by decide, h.1, (h.2.2 rfl rfl).1⟩

/-! ## Responding to a request that was already answered -/

/-- C18, as stated, fails: request 10 held by user 2 is `accepted`; a later response
`rejected` by user 2 succeeds and the request is stored as `rejected`. -/
theorem accepted_request_changes :
    annBobLinked.findRequest 2 10 = some (PartnerRequest.mk 10 1 RequestStatus.accepted 0)
      ∧ (respond annBobLinked 2 10 rejectBody Faults.none).2
          = UserResponse.responded RequestStatus.rejected
      ∧ (respond annBobLinked 2 10 rejectBody Faults.none).1.findRequest 2 10
          = some (PartnerRequest.mk 10 1 RequestStatus.rejected 0) := by
  decide

/-- C18, amended: a successful response sets the status of the named request of the
responder's own collection to the supplied decision, whatever the status was before
(pending, accepted or rejected), and leaves the responder's requests under other identifiers
as they were. -/
theorem respond_sets_status (s : Store) (b rid : Nat) (body : RespondInput) (f : Faults)
    (s' : Store) (st : RequestStatus)
    (h : respond s b rid body f = (s', UserResponse.responded st)) :
    castRequestStatus body.status = some st
      ∧ (∃ r, s.findRequest b rid = some r
          ∧ s'.findRequest b rid = some { r with status := st })
      ∧ ∀ x, x ≠ rid → s'.findRequest b x = s.findRequest b x := by
  obtain ⟨ub, r, hu, hr, hc, hcase⟩ := respond_responded s b rid body f s' st h
  have hub := (findUser_some s b ub hu).2
  have hrid : r._id = rid := by
    have := List.find?_some hr
    simpa using this
  have hfind : ∃ u', s'.findUser b = some u'
      ∧ u'.partnerRequests = (ub.withStatus rid st).partnerRequests := by
    rcases hcase with ⟨_, hst, hs'⟩ | ⟨_, hs'⟩
    · refine ⟨ub.accepting rid r.user, ?_, ?_⟩
      · rw [hs', findUser_accept s r.user b (ub.accepting rid r.user) ub hub hu b]
        simp
      · rw [hst]; rfl
    · refine ⟨ub.withStatus rid st, ?_, rfl⟩
      rw [hs']
      have := findUser_saveUser_self s (ub.withStatus rid st) ub (by rw [← hub] at hu; exact hu)
      rw [← hub]
      exact this
  obtain ⟨u', hu', hreq⟩ := hfind
  refine ⟨hc, ⟨r, ?_, ?_⟩, ?_⟩
  · simp [Store.findRequest, hu, hr]
  · simp only [Store.findRequest, hu', hreq, User.withStatus]
    rw [find?_withStatus, hr]
    simp [hrid]
  · intro x hx
    simp only [Store.findRequest, hu', hu, hreq, User.withStatus]
    rw [find?_withStatus]
    cases hfx : ub.partnerRequests.find? (fun r => decide (r._id = x)) with
    | none => rfl
    | some y =>
      have hy : y._id = x := by
        have := List.find?_some hfx
        simpa using this
      have : ¬ y._id = rid := by rw [hy]; exact hx
      simp [this]

/-- Witness of C18: the response `rejected` to a request that is stored as `accepted`. -/
theorem respond_sets_status_witness :
    annBobLinked.findRequest 2 10 = some (PartnerRequest.mk 10 1 RequestStatus.accepted 0)
      ∧ ∃ s', respond annBobLinked 2 10 rejectBody Faults.none
            = (s', UserResponse.responded RequestStatus.rejected)
          ∧ castRequestStatus rejectBody.status = some RequestStatus.rejected
          ∧ (∃ r, annBobLinked.findRequest 2 10 = some r
              ∧ s'.findRequest 2 10 = some { r with status := RequestStatus.rejected })
          ∧ ∀ x, x ≠ 10 → s'.findRequest 2 x = annBobLinked.findRequest 2 x :=
  ⟨by decide, (respond annBobLinked 2 10 rejectBody Faults.none).1, by decide,
    respond_sets_status annBobLinked 2 10 rejectBody Faults.none _ RequestStatus.rejected
      (by decide)⟩

/-! ## Responding to an unknown request -/

/-- C19: when the responder's own collection holds no request with the given identifier
(also when another user holds one), the handler leaves the whole store as it was, and
answers `Request not found` unless the lookup itself is rejected. -/
theorem respond_notFound (s : Store) (b rid : Nat) (body : RespondInput) (f : Faults)
    (ub : User) (hu : s.findUser b = some ub)
    (hnone : ∀ r ∈ ub.partnerRequests, r._id ≠ rid) :
    (respond s b rid body f).1 = s
      ∧ (f.find = false → respond s b rid body f = (s, UserResponse.requestNotFound)) := by
  have hr : ub.partnerRequests.find? (fun x => decide (x._id = rid)) = none := by
    simp only [List.find?_eq_none, decide_eq_true_eq]
    exact hnone
  constructor
  · by_cases hf : f.find = true
    · simp [respond, hf]
    · simp [respond, hf, hu, hr]
  · intro hf
    simp [respond, hf, hu, hr]

/-- Witness of C19: user 3 names request 10, which is held by user 2. -/
theorem respond_notFound_witness :
    annAskedBob.findUser 3 = some (plainUser 3 "cy")
      ∧ (annAskedBob.findRequest 2 10).isSome = true
      ∧ (∀ r ∈ (plainUser 3 "cy").partnerRequests, r._id ≠ 10)
      ∧ (respond annAskedBob 3 10 acceptBody Faults.none).1 = annAskedBob
      ∧ (Faults.none.find = false →
          respond annAskedBob 3 10 acceptBody Faults.none
            = (annAskedBob, UserResponse.requestNotFound)) :=
  ⟨by decide, by decide, by decide,
    respond_notFound annAskedBob 3 10 acceptBody Faults.none (plainUser 3 "cy") (by decide)
      (by decide)⟩

/-! ## Accepting while already linked -/

/-- C20: when user `b`, linked to `a`, accepts a request of a third user `c` and no
persistence call rejects, the acceptance succeeds; afterwards `b` names `c`, `c` names `b`,
and the record of `a` is as before, so that `a` still names `b`. -/
theorem accept_overwrites_partner (s : Store) (a b c rid : Nat) (ua ub uc : User)
    (r : PartnerRequest) (hb : s.findUser b = some ub)
    (hbp : ub.accountabilityPartner = some a) (ha : s.findUser a = some ua)
    (hap : ua.accountabilityPartner = some b) (hc : s.findUser c = some uc)
    (hr : ub.partnerRequests.find? (fun x => decide (x._id = rid)) = some r)
    (hrc : r.user = c) (hab : a ≠ b) (hac : a ≠ c) :
    ∃ s', respond s b rid ⟨some "accepted"⟩ Faults.none
          = (s', UserResponse.responded RequestStatus.accepted)
      ∧ s.partnerOf b = some a ∧ s'.partnerOf b = some c ∧ s'.partnerOf c = some b
      ∧ s'.findUser a = some ua ∧ s'.partnerOf a = some b := by
  have hub := (findUser_some s b ub hb).2
  have hresp := respond_accept s b rid Faults.none ub r hb hr
  simp only [Faults.none, Bool.false_eq_true, if_false, hrc] at hresp
  have hid : (ub.accepting rid c)._id = b := hub
  have hfa : ((s.setPartner c b).saveUser (ub.accepting rid c)).findUser a = some ua := by
    rw [findUser_accept s c b (ub.accepting rid c) ub hid hb a, ha]
    have : ¬ ua._id = c := by rw [(findUser_some s a ua ha).2]; exact hac
    simp [hab, this]
  refine ⟨_, hresp, ?_, ?_, ?_, hfa, ?_⟩
  · rw [partnerOf_eq _ _ _ hb, hbp]
  · rw [partnerOf_accept s c b (ub.accepting rid c) ub hid hb b]
    simp [User.accepting]
  · rw [partnerOf_accept s c b (ub.accepting rid c) ub hid hb c]
    by_cases hcb : c = b
    · simp [hcb, User.accepting]
    · simp [hcb, hc]
  · rw [partnerOf_eq _ _ _ hfa, hap]

/-- Witness of C20: user 2, linked to user 1, accepts request 11 of user 3. -/
theorem accept_overwrites_partner_witness :
    bobLinkedAsked.partnerOf 2 = some 1 ∧ bobLinkedAsked.partnerOf 1 = some 2
      ∧ ∃ s', respond bobLinkedAsked 2 11 ⟨some "accepted"⟩ Faults.none
            = (s', UserResponse.responded RequestStatus.accepted)
          ∧ bobLinkedAsked.partnerOf 2 = some 1
          ∧ s'.partnerOf 2 = some 3 ∧ s'.partnerOf 3 = some 2
          ∧ s'.findUser 1 = some { plainUser 1 "ann" with
              accountabilityPartner := some 2
              partnerRequests := [PartnerRequest.mk 10 2 RequestStatus.accepted 0] }
          ∧ s'.partnerOf 1 = some 2 :=
  ⟨by decide, by decide,
    accept_overwrites_partner bobLinkedAsked 1 2 3 11
      { plainUser 1 "ann" with
        accountabilityPartner := some 2
        partnerRequests := [PartnerRequest.mk 10 2 RequestStatus.accepted 0] }
      { plainUser 2 "bob" with
        accountabilityPartner := some 1
        partnerRequests := [PartnerRequest.mk 11 3 RequestStatus.pending 0] }
      (plainUser 3 "cy") (PartnerRequest.mk 11 3 RequestStatus.pending 0)
      (by decide) rfl (by decide) rfl (by decide) (by decide) rfl (by decide) (by decide)⟩

theorem partnersSymmetric_iff (s : Store) :
    s.partnersSymmetric = true ↔
      ∀ u ∈ s.users, ∀ p, u.accountabilityPartner = some p → s.partnerOf p = some u._id := by
  simp only [Store.partnersSymmetric, List.all_eq_true]
  constructor
  · intro h u hu p hp
    have := h u hu
    rw [hp] at this
    simpa using this
  · intro h u hu
    cases hp : u.accountabilityPartner with
    | none => rfl
    | some p => simpa using h u hu p hp

theorem partnersSymmetric_saveUser (s : Store) (u' ub : User)
    (hb : s.findUser u'._id = some ub)
    (hp : u'.accountabilityPartner = ub.accountabilityPartner)
    (hs : s.partnersSymmetric = true) : (s.saveUser u').partnersSymmetric = true := by
  rw [partnersSymmetric_iff] at hs ⊢
  intro u₁ hu₁ p hp₁
  rw [partnerOf_saveUser s u' ub hb hp]
  simp only [Store.saveUser, List.mem_map] at hu₁
  obtain ⟨u, hu, rfl⟩ := hu₁
  by_cases h : u._id = u'._id
  · simp only [h, if_true] at hp₁ ⊢
    have := hs ub (findUser_some s u'._id ub hb).1 p (by rw [← hp]; exact hp₁)
    rw [this, (findUser_some s u'._id ub hb).2]
  · simp only [h, if_false] at hp₁ ⊢
    exact hs u hu p hp₁

theorem partnersSymmetric_accept (s : Store) (a b : Nat) (u' ub ua : User)
    (hid : u'._id = b) (hu' : u'.accountabilityPartner = some a)
    (hb : s.findUser b = some ub) (ha : s.findUser a = some ua)
    (hpb : s.partnerOf b = none) (hpa : s.partnerOf a = none)
    (hs : s.partnersSymmetric = true) :
    ((s.setPartner a b).saveUser u').partnersSymmetric = true := by
  rw [partnersSymmetric_iff] at hs ⊢
  intro u₁ hu₁ p hp₁
  rw [partnerOf_accept s a b u' ub hid hb p]
  simp only [Store.saveUser, Store.setPartner, List.mem_map] at hu₁
  obtain ⟨u₂, ⟨u, hu, rfl⟩, rfl⟩ := hu₁
  have hk : (if u._id = a then { u with accountabilityPartner := some b } else u)._id
      = u._id := by
    by_cases h : u._id = a
    · simp only [h, if_true]
    · simp only [h, if_false]
  rw [hk, hid] at hp₁ ⊢
  by_cases hub : u._id = b
  · rw [if_pos hub] at hp₁ ⊢
    rw [hu'] at hp₁
    simp only [Option.some.injEq] at hp₁
    subst hp₁
    by_cases hab : a = b
    · rw [if_pos hab, hu', hab, hid]
    · rw [if_neg hab, if_pos rfl, ha, hid]
      rfl
  · rw [if_neg hub] at hp₁ ⊢
    by_cases hua : u._id = a
    · rw [if_pos hua] at hp₁ ⊢
      simp only [Option.some.injEq] at hp₁
      subst hp₁
      rw [if_pos rfl, hu', hua]
    · rw [if_neg hua] at hp₁ ⊢
      have hold := hs u hu p hp₁
      by_cases hpb' : p = b
      · rw [hpb', hpb] at hold
        simp at hold
      · by_cases hpa' : p = a
        · rw [hpa', hpa] at hold
          simp at hold
        · rw [if_neg hpb', if_neg hpa']
          exact hold

theorem respond_ne_sent (s : Store) (b rid : Nat) (body : RespondInput) (f : Faults) :
    (respond s b rid body f).2 ≠ UserResponse.sent := by
  cases hu : s.findUser b with
  | none =>
    by_cases hf : f.find = true
    · simp [respond, hf]
    · simp [respond, hf, hu]
  | some ub =>
    cases hr : ub.partnerRequests.find? (fun x => decide (x._id = rid)) with
    | none =>
      by_cases hf : f.find = true
      · simp [respond, hf]
      · simp [respond, hf, hu, hr]
    | some r =>
      by_cases hb : body.status = some "accepted"
      · have hbody : body = ⟨some "accepted"⟩ := by
          cases body
          simp only [RespondInput.mk.injEq]
          exact hb
        rw [hbody, respond_accept s b rid f ub r hu hr]
        split_ifs <;> simp
      · rw [respond_other s b rid body f ub r hu hr hb]
        cases castRequestStatus body.status with
        | none => split_ifs <;> simp
        | some st => split_ifs <;> simp

theorem stepPartner_symmetric (s : Store) (e : PartnerEvent)
    (hs : s.partnersSymmetric = true) (hsucc : e.succeeds s = true)
    (hfresh : e.relinks s = false) : (stepPartner s e).1.partnersSymmetric = true := by
  cases e with
  | send requester target newId now f =>
    simp only [stepPartner]
    rcases sendRequest_cases s requester target newId now f with ⟨h1, _⟩ | ⟨tu, htu, _, heq⟩
    · rw [h1]; exact hs
    · rw [heq]
      have hid := (findUser_some s target tu htu).2
      exact partnersSymmetric_saveUser s _ tu (by rw [← hid] at htu; exact htu) rfl hs
  | respond requester requestId body f =>
    simp only [stepPartner]
    cases hres : respond s requester requestId body f with
    | mk s' resp =>
      cases resp with
      | responded st =>
        obtain ⟨ub, r, hu, hr, _, hcase⟩ :=
          respond_responded s requester requestId body f s' st hres
        have hub := (findUser_some s requester ub hu).2
        rcases hcase with ⟨hacc, _, hs'⟩ | ⟨_, hs'⟩
        · simp only [PartnerEvent.relinks, hacc, decide_True, Bool.true_and,
            Store.findRequest, hu, hr, Bool.or_eq_false_iff] at hfresh
          obtain ⟨⟨hpb, hpa⟩, hex⟩ := hfresh
          have hpb' : s.partnerOf requester = none := by
            cases h : s.partnerOf requester with
            | none => rfl
            | some v => rw [h] at hpb; simp at hpb
          have hpa' : s.partnerOf r.user = none := by
            cases h : s.partnerOf r.user with
            | none => rfl
            | some v => rw [h] at hpa; simp at hpa
          cases hfa : s.findUser r.user with
          | none => rw [hfa] at hex; simp at hex
          | some ua =>
            rw [hs']
            exact partnersSymmetric_accept s r.user requester _ ub ua hub rfl hu hfa
              hpb' hpa' hs
        · rw [hs']
          exact partnersSymmetric_saveUser s _ ub (by rw [← hub] at hu; exact hu) rfl hs
      | sent => exact absurd (by rw [hres]) (respond_ne_sent s requester requestId body f)
      | userNotFound => simp [PartnerEvent.succeeds, stepPartner, hres] at hsucc
      | requestNotFound => simp [PartnerEvent.succeeds, stepPartner, hres] at hsucc
      | alreadySent => simp [PartnerEvent.succeeds, stepPartner, hres] at hsucc
      | serverError => simp [PartnerEvent.succeeds, stepPartner, hres] at hsucc

/-! ## Symmetry of the partner relation -/

/-- C16, as stated, fails: from three users without partner or request, user 1 asks user 2,
who accepts, then user 2 asks user 3, who accepts; every request succeeds, and afterwards
user 1 names user 2 while user 2 names user 3. -/
theorem partnersSymmetric_fails_after_relink :
    threeUsers.partnersSymmetric = true ∧ allSucceed threeUsers relinkEvents = true
      ∧ (runPartner threeUsers relinkEvents).partnerOf 1 = some 2
      ∧ (runPartner threeUsers relinkEvents).partnerOf 2 = some 3
      ∧ (runPartner threeUsers relinkEvents).partnersSymmetric = false := by
  decide

/-- C16, amended: from a store in which the partner relation is symmetric (no partners at
all, for one), after any sequence of successful partner requests and responses in which every
acceptance links two existing users who both have no partner at that time, the partner
relation is symmetric: whoever names a partner is named back by that partner. -/
theorem partnersSymmetric_run (s : Store) (events : List PartnerEvent)
    (hs : s.partnersSymmetric = true) (hev : allSucceedFresh s events = true) :
    (runPartner s events).partnersSymmetric = true := by
  induction events generalizing s with
  | nil => exact hs
  | cons e es ih =>
    simp only [allSucceedFresh, Bool.and_eq_true, Bool.not_eq_true'] at hev
    obtain ⟨⟨hsucc, hfresh⟩, hrest⟩ := hev
    simp only [runPartner, List.foldl_cons]
    exact ih (stepPartner s e).1 (stepPartner_symmetric s e hs hsucc hfresh) hrest

/-- Witness of C16: user 1 asks user 2, who accepts, rejects and accepts again, and user 1
asks user 3, who rejects. -/
theorem partnersSymmetric_run_witness :
    threeUsers.partnersSymmetric = true ∧ allSucceedFresh threeUsers freshEvents = true
      ∧ (runPartner threeUsers freshEvents).partnerOf 1 = some 2
      ∧ (runPartner threeUsers freshEvents).partnersSymmetric = true :=
  ⟨by decide, by decide, by decide,
    partnersSymmetric_run threeUsers freshEvents (by decide) (by decide)⟩

/-! ## Completion rate and average progress -/

theorem jsOrZero_some (x : ℚ) : jsOrZero (some x) = x := by
  by_cases h : x = 0
  · simp [jsOrZero, h]
  · simp [jsOrZero, h]

theorem foldl_progress (goals : List Goal) (init : Int) :
    goals.foldl (fun acc goal => acc + goal.currentProgress) init
      = init + (goals.map (fun g => g.currentProgress)).sum := by
  induction goals generalizing init with
  | nil => simp
  | cons g l ih =>
    simp only [List.foldl_cons, List.map_cons, List.sum_cons]
    rw [ih]
    ring

theorem sum_progress_bounds (goals : List Goal)
    (h : ∀ g ∈ goals, 0 ≤ g.currentProgress ∧ g.currentProgress ≤ 100) :
    0 ≤ (goals.map (fun g => g.currentProgress)).sum
      ∧ (goals.map (fun g => g.currentProgress)).sum ≤ 100 * (goals.length : Int) := by
  induction goals with
  | nil => simp
  | cons g l ih =>
    have hg := h g (List.mem_cons_self g l)
    have hl := ih (fun x hx => h x (List.mem_cons_of_mem g hx))
    simp only [List.map_cons, List.sum_cons, List.length_cons]
    push_cast
    constructor <;> omega

theorem jsRound_div_nat (a : Int) (n : Nat) (hn : 0 < n) :
    jsRound ((a : ℚ) / (n : ℚ)) = (2 * a + n) / (2 * n) := by
  have h : (a : ℚ) / (n : ℚ) + 1 / 2 = ((2 * a + n : Int) : ℚ) / ((2 * n : Nat) : ℚ) := by
    have hn' : (n : ℚ) ≠ 0 := by exact_mod_cast hn.ne'
    push_cast
    field_simp
    ring
  unfold jsRound
  rw [h]
  rw [show (2 * (n : Int)) = ((2 * n : Nat) : Int) by push_cast; ring]
  exact Rat.floor_intCast_div_natCast (2 * a + n) (2 * n)

/-! ### Rounding to a double -/

theorem roundHalfEven_floor (q : ℚ) :
    ⌊q⌋ ≤ roundHalfEven q ∧ roundHalfEven q ≤ ⌊q⌋ + 1 := by
  unfold roundHalfEven
  split_ifs <;> omega

theorem roundHalfEven_near (q : ℚ) :
    q - 1 / 2 ≤ (roundHalfEven q : ℚ) ∧ (roundHalfEven q : ℚ) ≤ q + 1 / 2 := by
  have h1 := Int.floor_le q
  have h2 := Int.lt_floor_add_one q
  unfold roundHalfEven
  split_ifs with ha hb hc
  · constructor <;> linarith
  · push_cast
    constructor <;> linarith
  · constructor <;> linarith
  · push_cast
    constructor <;> linarith

theorem roundHalfEven_intCast (k : Int) : roundHalfEven (k : ℚ) = k := by
  unfold roundHalfEven
  simp

theorem roundHalfEven_mono {p q : ℚ} (h : p ≤ q) : roundHalfEven p ≤ roundHalfEven q := by
  have hf : ⌊p⌋ ≤ ⌊q⌋ := Int.floor_mono h
  by_cases heq : ⌊p⌋ = ⌊q⌋
  · unfold roundHalfEven
    rw [heq]
    split_ifs <;> first | omega | (exfalso; linarith)
  · have := (roundHalfEven_floor p).2
    have := (roundHalfEven_floor q).1
    omega

theorem roundHalfEven_eq_of {q : ℚ} {k : Int} (h1 : (k : ℚ) - 1 / 2 < q)
    (h2 : q < (k : ℚ) + 1 / 2) : roundHalfEven q = k := by
  obtain ⟨ha, hb⟩ := roundHalfEven_near q
  have h3 : (roundHalfEven q : ℚ) < ((k + 1 : Int) : ℚ) := by
    push_cast
    linarith
  have h4 : ((k - 1 : Int) : ℚ) < (roundHalfEven q : ℚ) := by
    push_cast
    linarith
  have h3' : roundHalfEven q < k + 1 := by exact_mod_cast h3
  have h4' : k - 1 < roundHalfEven q := by exact_mod_cast h4
  omega

theorem log_two_bounds {x : ℚ} (hx : 0 < x) :
    (2 : ℚ) ^ Int.log 2 x ≤ x ∧ x < (2 : ℚ) ^ (Int.log 2 x + 1) := by
  have a := Int.zpow_log_le_self (b := 2) (by norm_num) hx
  have b := Int.lt_zpow_succ_log_self (b := 2) (by norm_num) x
  exact ⟨by simpa using a, by simpa using b⟩

theorem log_two_eq {x : ℚ} {e : Int} (h1 : (2 : ℚ) ^ e ≤ x) (h2 : x < (2 : ℚ) ^ (e + 1)) :
    Int.log 2 x = e := by
  have hx : 0 < x := lt_of_lt_of_le (by positivity) h1
  have a : e ≤ Int.log 2 x :=
    (Int.zpow_le_iff_le_log (b := 2) (by norm_num) hx).mp (by simpa using h1)
  have b : Int.log 2 x < e + 1 :=
    (Int.lt_zpow_iff_log_lt (b := 2) (by norm_num) hx).mp (by simpa using h2)
  omega

theorem two_zpow_split (e : Int) :
    (2 : ℚ) ^ e = 2 ^ 52 * (2 : ℚ) ^ (e - 52)
      ∧ (2 : ℚ) ^ (e + 1) = 2 ^ 53 * (2 : ℚ) ^ (e - 52) := by
  constructor
  · rw [show ((2 : ℚ) ^ 52) = (2 : ℚ) ^ (52 : ℤ) by norm_cast, ← zpow_add₀ two_ne_zero]
    congr 1
    ring
  · rw [show ((2 : ℚ) ^ 53) = (2 : ℚ) ^ (53 : ℤ) by norm_cast, ← zpow_add₀ two_ne_zero]
    congr 1
    ring

theorem roundDouble_zero : roundDouble 0 = 0 := by
  simp [roundDouble]

theorem roundDouble_pos {x : ℚ} (hx : 0 < x) :
    roundDouble x = (roundHalfEven (x / (2 : ℚ) ^ (Int.log 2 x - 52)) : ℚ)
      * (2 : ℚ) ^ (Int.log 2 x - 52) := by
  unfold roundDouble
  rw [if_neg hx.ne', abs_of_pos hx]

theorem significand_bounds {x : ℚ} (hx : 0 < x) :
    ((2 ^ 52 : Int) : ℚ) ≤ x / (2 : ℚ) ^ (Int.log 2 x - 52)
      ∧ x / (2 : ℚ) ^ (Int.log 2 x - 52) ≤ ((2 ^ 53 : Int) : ℚ) := by
  obtain ⟨h1, h2⟩ := log_two_bounds hx
  obtain ⟨e1, e2⟩ := two_zpow_split (Int.log 2 x)
  have hu : (0 : ℚ) < (2 : ℚ) ^ (Int.log 2 x - 52) := by positivity
  constructor
  · rw [le_div_iff₀ hu]
    push_cast
    linarith
  · rw [div_le_iff₀ hu]
    push_cast
    linarith

theorem roundDouble_binade {x : ℚ} (hx : 0 < x) :
    (2 : ℚ) ^ Int.log 2 x ≤ roundDouble x
      ∧ roundDouble x ≤ (2 : ℚ) ^ (Int.log 2 x + 1) := by
  obtain ⟨h1, h2⟩ := significand_bounds hx
  obtain ⟨e1, e2⟩ := two_zpow_split (Int.log 2 x)
  have hu : (0 : ℚ) < (2 : ℚ) ^ (Int.log 2 x - 52) := by positivity
  have a := roundHalfEven_mono h1
  have b := roundHalfEven_mono h2
  rw [roundHalfEven_intCast] at a b
  have a' : ((2 : ℚ) ^ 52) ≤ (roundHalfEven (x / (2 : ℚ) ^ (Int.log 2 x - 52)) : ℚ) := by
    exact_mod_cast a
  have b' : (roundHalfEven (x / (2 : ℚ) ^ (Int.log 2 x - 52)) : ℚ) ≤ ((2 : ℚ) ^ 53) := by
    exact_mod_cast b
  rw [roundDouble_pos hx, e1, e2]
  exact ⟨mul_le_mul_of_nonneg_right a' hu.le, mul_le_mul_of_nonneg_right b' hu.le⟩

theorem roundDouble_nonneg {x : ℚ} (hx : 0 ≤ x) : 0 ≤ roundDouble x := by
  rcases hx.eq_or_lt with h | h
  · rw [← h, roundDouble_zero]
  · exact le_trans (by positivity) (roundDouble_binade h).1

theorem roundDouble_mono {x y : ℚ} (hx : 0 ≤ x) (h : x ≤ y) :
    roundDouble x ≤ roundDouble y := by
  rcases hx.eq_or_lt with h0 | h0
  · rw [← h0, roundDouble_zero]
    exact roundDouble_nonneg (le_trans hx h)
  · have hy : 0 < y := lt_of_lt_of_le h0 h
    have hlog : Int.log 2 x ≤ Int.log 2 y := Int.log_mono_right h0 h
    rcases hlog.eq_or_lt with he | he
    · rw [roundDouble_pos h0, roundDouble_pos hy, he]
      have hu : (0 : ℚ) < (2 : ℚ) ^ (Int.log 2 y - 52) := by positivity
      apply mul_le_mul_of_nonneg_right _ hu.le
      have : x / (2 : ℚ) ^ (Int.log 2 y - 52) ≤ y / (2 : ℚ) ^ (Int.log 2 y - 52) :=
        div_le_div_of_nonneg_right h hu.le
      exact_mod_cast roundHalfEven_mono this
    · have h1 := (roundDouble_binade h0).2
      have h2 := (roundDouble_binade hy).1
      have h3 : (2 : ℚ) ^ (Int.log 2 x + 1) ≤ (2 : ℚ) ^ Int.log 2 y :=
        zpow_le_zpow_right₀ (by norm_num) (by omega)
      linarith

theorem roundDouble_near {x : ℚ} (hx : 0 ≤ x) :
    x - x / 2 ^ 53 ≤ roundDouble x ∧ roundDouble x ≤ x + x / 2 ^ 53 := by
  rcases hx.eq_or_lt with h0 | h0
  · rw [← h0, roundDouble_zero]
    norm_num
  · obtain ⟨h1, _⟩ := log_two_bounds h0
    obtain ⟨e1, _⟩ := two_zpow_split (Int.log 2 x)
    have hu : (0 : ℚ) < (2 : ℚ) ^ (Int.log 2 x - 52) := by positivity
    obtain ⟨ha, hb⟩ := roundHalfEven_near (x / (2 : ℚ) ^ (Int.log 2 x - 52))
    have hq : x / (2 : ℚ) ^ (Int.log 2 x - 52) * (2 : ℚ) ^ (Int.log 2 x - 52) = x :=
      div_mul_cancel₀ x hu.ne'
    have ha' := mul_le_mul_of_nonneg_right ha hu.le
    have hb' := mul_le_mul_of_nonneg_right hb hu.le
    rw [sub_mul, hq] at ha'
    rw [add_mul, hq] at hb'
    rw [roundDouble_pos h0]
    have hbig : (2 : ℚ) ^ (Int.log 2 x - 52) ≤ x / 2 ^ 52 := by
      rw [le_div_iff₀ (by positivity)]
      linarith
    constructor <;> linarith

theorem roundDouble_eq_of {x : ℚ} (e k : Int) (h1 : (2 : ℚ) ^ e ≤ x)
    (h2 : x < (2 : ℚ) ^ (e + 1)) (h3 : (k : ℚ) - 1 / 2 < x / (2 : ℚ) ^ (e - 52))
    (h4 : x / (2 : ℚ) ^ (e - 52) < (k : ℚ) + 1 / 2) :
    roundDouble x = (k : ℚ) * (2 : ℚ) ^ (e - 52) := by
  have hx : 0 < x := lt_of_lt_of_le (by positivity) h1
  rw [roundDouble_pos hx, log_two_eq h1 h2, roundHalfEven_eq_of h3 h4]

theorem roundDouble_one : roundDouble 1 = 1 := by
  rw [roundDouble_eq_of 0 (2 ^ 52) (by norm_num) (by norm_num) (by norm_num) (by norm_num)]
  norm_num

theorem roundDouble_hundred : roundDouble 100 = 100 := by
  rw [roundDouble_eq_of 6 (100 * 2 ^ 46) (by norm_num) (by norm_num) (by norm_num)
    (by norm_num)]
  norm_num

theorem roundDouble_below_one : roundDouble (1 - 1 / 2 ^ 53) = 1 - 1 / 2 ^ 53 := by
  rw [roundDouble_eq_of (-1) (2 ^ 53 - 1) (by norm_num) (by norm_num) (by norm_num)
    (by norm_num)]
  norm_num

theorem roundDouble_below_hundred :
    roundDouble ((1 - 1 / 2 ^ 53) * 100) = 100 - 1 / 2 ^ 46 := by
  rw [roundDouble_eq_of 6 (100 * 2 ^ 46 - 1) (by norm_num) (by norm_num) (by norm_num)
    (by norm_num)]
  norm_num

theorem roundDouble_eleven_twentieths :
    roundDouble (11 / 20) = 4953959590107546 / 2 ^ 53
      ∧ roundDouble (4953959590107546 / 2 ^ 53 * 100) = 55 + 1 / 2 ^ 47 := by
  constructor
  · rw [roundDouble_eq_of (-1) 4953959590107546 (by norm_num) (by norm_num) (by norm_num)
      (by norm_num)]
    norm_num
  · rw [roundDouble_eq_of 5 7740561859543041 (by norm_num) (by norm_num) (by norm_num)
      (by norm_num)]
    norm_num

/-! ### The completion rate -/

/-- C21, the claim as stated fails: with 11 of 20 goals complete the exact rational is 55,
but the double nearest to 11 / 20 lies above it, and its product with 100 is stored as the
next double above 55, printed 55.00000000000001. -/
theorem completionRate_not_exact :
    completionRate elevenOfTwenty = 55 + 1 / 2 ^ 47
      ∧ (((elevenOfTwenty.filter (fun g => decide (g.currentProgress = 100))).length : ℕ) : ℚ)
          / ((elevenOfTwenty.length : ℕ) : ℚ) * 100 = 55
      ∧ completionRate elevenOfTwenty
        ≠ (((elevenOfTwenty.filter (fun g => decide (g.currentProgress = 100))).length : ℕ) : ℚ)
          / ((elevenOfTwenty.length : ℕ) : ℚ) * 100 := by
  have hc : (elevenOfTwenty.filter (fun g => decide (g.currentProgress = 100))).length = 11 := by
    decide
  have hl : elevenOfTwenty.length = 20 := by decide
  have hv : completionRate elevenOfTwenty = 55 + 1 / 2 ^ 47 := by
    unfold completionRate
    rw [hc, hl]
    have hd : jsDiv ((11 : ℕ) : ℚ) ((20 : ℕ) : ℚ) = some (11 / 20) := by
      unfold jsDiv
      norm_num
    rw [hd]
    simp only [Option.map_some', jsOrZero_some]
    rw [roundDouble_eleven_twentieths.1, roundDouble_eleven_twentieths.2]
  refine ⟨hv, ?_, ?_⟩
  · rw [hc, hl]
    norm_num
  · rw [hv, hc, hl]
    norm_num

/-- C21 (amended): for every list of fewer than `2 ^ 53` goals, the completion rate is 0 for
the empty list and otherwise the quotient (number of goals at progress 100) / (number of
goals), rounded to a double, times 100, rounded to a double; it differs from the exact
rational by at most that rational divided by `2 ^ 51`; it lies between 0 and 100 and is 100
exactly when the list is non-empty and every goal is at progress 100. -/
theorem completionRate_spec (goals : List Goal) (hlen : goals.length < 2 ^ 53) :
    (goals = [] → completionRate goals = 0)
      ∧ (goals ≠ [] → completionRate goals
          = roundDouble (roundDouble
              ((((goals.filter (fun g => decide (g.currentProgress = 100))).length : ℕ) : ℚ)
                / ((goals.length : ℕ) : ℚ)) * 100))
      ∧ |completionRate goals
          - (((goals.filter (fun g => decide (g.currentProgress = 100))).length : ℕ) : ℚ)
            / ((goals.length : ℕ) : ℚ) * 100|
        ≤ (((goals.filter (fun g => decide (g.currentProgress = 100))).length : ℕ) : ℚ)
            / ((goals.length : ℕ) : ℚ) * 100 / 2 ^ 51
      ∧ 0 ≤ completionRate goals ∧ completionRate goals ≤ 100
      ∧ (completionRate goals = 100 ↔
          goals ≠ [] ∧ ∀ g ∈ goals, g.currentProgress = 100) := by
  by_cases hnil : goals = []
  · subst hnil
    simp [completionRate, jsDiv, jsOrZero]
  · have hpos : 0 < goals.length := List.length_pos.mpr hnil
    have hN : (0 : ℚ) < ((goals.length : ℕ) : ℚ) := by exact_mod_cast hpos
    have hle : (goals.filter (fun g => decide (g.currentProgress = 100))).length
        ≤ goals.length := List.length_filter_le _ _
    have hleq : (((goals.filter (fun g => decide (g.currentProgress = 100))).length : ℕ) : ℚ)
        ≤ ((goals.length : ℕ) : ℚ) := by exact_mod_cast hle
    have heq : completionRate goals
        = roundDouble (roundDouble
            ((((goals.filter (fun g => decide (g.currentProgress = 100))).length : ℕ) : ℚ)
              / ((goals.length : ℕ) : ℚ)) * 100) := by
      simp only [completionRate, jsDiv, hN.ne', if_false, Option.map_some', jsOrZero_some]
    generalize hX : (((goals.filter (fun g => decide (g.currentProgress = 100))).length : ℕ) : ℚ)
      / ((goals.length : ℕ) : ℚ) = X at heq ⊢
    have hX0 : 0 ≤ X := by
      rw [← hX]
      positivity
    have hX1 : X ≤ 1 := by
      rw [← hX, div_le_one hN]
      exact hleq
    have hy0 : 0 ≤ roundDouble X := roundDouble_nonneg hX0
    have hy1 : roundDouble X ≤ 1 := by
      have := roundDouble_mono hX0 hX1
      rwa [roundDouble_one] at this
    obtain ⟨n1, n2⟩ := roundDouble_near hX0
    obtain ⟨m1, m2⟩ := roundDouble_near (mul_nonneg hy0 (by norm_num : (0 : ℚ) ≤ 100))
    refine ⟨fun h => absurd h hnil, fun _ => heq, ?_, ?_, ?_, ?_⟩
    · rw [heq, abs_le]
      constructor <;> linarith
    · rw [heq]
      exact roundDouble_nonneg (mul_nonneg hy0 (by norm_num))
    · rw [heq]
      have := roundDouble_mono (mul_nonneg hy0 (by norm_num : (0 : ℚ) ≤ 100))
        (by linarith : roundDouble X * 100 ≤ 100)
      rwa [roundDouble_hundred] at this
    · constructor
      · intro h
        refine ⟨hnil, ?_⟩
        by_contra hnot
        have hne : (goals.filter (fun g => decide (g.currentProgress = 100))).length
            ≠ goals.length := by
          intro h'
          have := List.filter_length_eq_length.mp h'
          exact hnot (by simpa using this)
        have hlt : (goals.filter (fun g => decide (g.currentProgress = 100))).length + 1
            ≤ goals.length := by omega
        have hltq : (((goals.filter (fun g => decide (g.currentProgress = 100))).length : ℕ) : ℚ)
            + 1 ≤ ((goals.length : ℕ) : ℚ) := by exact_mod_cast hlt
        have hbig : ((goals.length : ℕ) : ℚ) ≤ 2 ^ 53 := by exact_mod_cast hlen.le
        have hXlt : X ≤ 1 - 1 / 2 ^ 53 := by
          rw [← hX, div_le_iff₀ hN]
          have : ((goals.length : ℕ) : ℚ) / 2 ^ 53 ≤ 1 := by
            rw [div_le_one (by positivity)]
            exact hbig
          linarith
        have hy : roundDouble X ≤ 1 - 1 / 2 ^ 53 := by
          have := roundDouble_mono hX0 hXlt
          rwa [roundDouble_below_one] at this
        have hr := roundDouble_mono (mul_nonneg hy0 (by norm_num : (0 : ℚ) ≤ 100))
          (by linarith : roundDouble X * 100 ≤ (1 - 1 / 2 ^ 53) * 100)
        rw [roundDouble_below_hundred, ← heq, h] at hr
        norm_num at hr
      · rintro ⟨_, hall⟩
        have h' : (goals.filter (fun g => decide (g.currentProgress = 100))).length
            = goals.length := List.filter_length_eq_length.mpr (by simpa using hall)
        have hX' : X = 1 := by
          rw [← hX, h']
          exact div_self hN.ne'
        rw [heq, hX', roundDouble_one, one_mul, roundDouble_hundred]

/-- Witness of C21: of three goals one is complete; the completion rate is the double
printed 33.33333333333333, below the exact rational 100 / 3. -/
theorem completionRate_spec_witness :
    threeGoals.length < 2 ^ 53
      ∧ completionRate threeGoals = 2345624805922133 / 2 ^ 46
      ∧ completionRate threeGoals ≠ 100 := by
  have h := completionRate_spec threeGoals (by decide)
  have hc : (threeGoals.filter (fun g => decide (g.currentProgress = 100))).length = 1 := by
    decide
  have hl : threeGoals.length = 3 := by decide
  have hv : completionRate threeGoals = 2345624805922133 / 2 ^ 46 := by
    rw [h.2.1 (by decide), hc, hl]
    have h1 : roundDouble (((1 : ℕ) : ℚ) / ((3 : ℕ) : ℚ)) = 6004799503160661 / 2 ^ 54 := by
      rw [roundDouble_eq_of (-2) 6004799503160661 (by norm_num) (by norm_num) (by norm_num)
        (by norm_num)]
      norm_num
    rw [h1]
    rw [roundDouble_eq_of 5 4691249611844266 (by norm_num) (by norm_num) (by norm_num)
      (by norm_num)]
    norm_num
  refine ⟨by decide, hv, ?_⟩
  rw [hv]
  norm_num

/-- C30: for every list of goals whose progress lies within `0..100`, the statistic
`averageProgress` is 0 for the empty list and otherwise `Math.round` (halves going up) of
the sum of progress divided by the number of goals; it lies within `0..100`; `totalGoals` is
the length of the list and `completedGoals` is at most `totalGoals`. -/
theorem goalStats_spec (goals : List Goal)
    (h : ∀ g ∈ goals, 0 ≤ g.currentProgress ∧ g.currentProgress ≤ 100) :
    (goalStats goals).averageProgress
        = (if goals = [] then 0
           else jsRound ((((goals.map (fun g => g.currentProgress)).sum : Int) : ℚ)
             / ((goals.length : ℕ) : ℚ)))
      ∧ (goalStats goals).averageProgress
        = (if goals = [] then 0
           else (2 * (goals.map (fun g => g.currentProgress)).sum + goals.length)
             / (2 * goals.length))
      ∧ 0 ≤ (goalStats goals).averageProgress ∧ (goalStats goals).averageProgress ≤ 100
      ∧ (goalStats goals).totalGoals = goals.length
      ∧ (goalStats goals).completedGoals ≤ (goalStats goals).totalGoals := by
  have htot : (goalStats goals).totalGoals = goals.length := rfl
  have hcomp : (goalStats goals).completedGoals ≤ (goalStats goals).totalGoals :=
    List.length_filter_le _ _
  by_cases hnil : goals = []
  · subst hnil
    refine ⟨?_, ?_, ?_, ?_, htot, hcomp⟩ <;>
      simp [goalStats, jsDiv, jsOrZero, jsRound, Rat.floor_def']
  · have hlen : 0 < goals.length := List.length_pos.mpr hnil
    have hlenq : ((goals.length : ℕ) : ℚ) ≠ 0 := by exact_mod_cast hlen.ne'
    obtain ⟨hs0, hs100⟩ := sum_progress_bounds goals h
    have heq : (goalStats goals).averageProgress
        = jsRound ((((goals.map (fun g => g.currentProgress)).sum : Int) : ℚ)
            / ((goals.length : ℕ) : ℚ)) := by
      simp only [goalStats, jsDiv, hlenq, if_false, jsOrZero_some, foldl_progress, zero_add]
    have hint := jsRound_div_nat (goals.map (fun g => g.currentProgress)).sum goals.length hlen
    refine ⟨by rw [heq, if_neg hnil], by rw [heq, if_neg hnil, hint], ?_, ?_, htot, hcomp⟩
    · rw [heq, hint]
      apply Int.ediv_nonneg <;> omega
    · rw [heq, hint]
      have : (2 * (goals.map (fun g => g.currentProgress)).sum + (goals.length : Int))
          / (2 * (goals.length : Int)) < 101 := by
        apply Int.ediv_lt_of_lt_mul <;> omega
      omega

/-- Witness of C30: goals at progress 80, 100 and 80 have average progress 87. -/
theorem goalStats_spec_witness :
    (∀ g ∈ threeGoals, 0 ≤ g.currentProgress ∧ g.currentProgress ≤ 100)
      ∧ (goalStats threeGoals).averageProgress = 87
      ∧ (goalStats threeGoals).totalGoals = 3 ∧ (goalStats threeGoals).completedGoals = 1 := by
  have h := goalStats_spec threeGoals (by decide)
  refine ⟨by decide, ?_, by decide, by decide⟩
  rw [h.2.1]
  decide

/-! ## Status and progress agree -/

theorem calculateStatus_consistent (g : Goal) (now : Int) :
    (g.calculateStatus now = Status.completed ↔ g.currentProgress = 100)
      ∧ (g.calculateStatus now = Status.notStarted ↔ g.currentProgress = 0) := by
  unfold Goal.calculateStatus
  by_cases h100 : g.currentProgress = 100
  · simp [h100]
  · by_cases h0 : g.currentProgress = 0
    · simp [h0]
    · simp only [h100, h0, if_false]
      split_ifs <;> simp

theorem pushProgress_statusConsistent (g : Goal) (p : Int) (notes : Option String)
    (now : Int) : (g.pushProgress p notes now).statusConsistent = true := by
  simp only [Goal.statusConsistent, Goal.pushProgress, Bool.and_eq_true, decide_eq_true_eq]
  exact calculateStatus_consistent _ now

theorem saveGoal_all (s : Store) (g : Goal) (P : Goal → Bool)
    (hs : s.goals.all P = true) (hg : P g = true) : (s.saveGoal g).goals.all P = true := by
  simp only [Store.saveGoal, List.all_eq_true, List.mem_map] at hs ⊢
  rintro x ⟨y, hy, rfl⟩
  by_cases h : y._id = g._id
  · simpa [h] using hg
  · simpa [h] using hs y hy

theorem step_statusConsistent (s : Store) (e : Event) (hs : s.statusConsistent = true)
    (he : e.suppliesState = false) : (step s e).statusConsistent = true := by
  cases e with
  | create requester body newId now f =>
    simp only [Event.suppliesState, Bool.or_eq_false_iff, Bool.not_eq_false',
      List.isEmpty_iff] at he
    obtain ⟨⟨hcp, hst⟩, hl⟩ := he
    have hcp' : body.currentProgress = none := by
      cases hb : body.currentProgress with
      | none => rfl
      | some v => simp [hb] at hcp
    have hst' : body.status = none := by
      cases hb : body.status with
      | none => rfl
      | some v => simp [hb] at hst
    rcases createGoal_cases s requester body newId now f with h | ⟨g, hg, _, h⟩
    · simp only [step, h]
      exact hs
    · simp only [step, h]
      obtain ⟨_, _, hprog, hstatus, _⟩ := newGoal_some body requester newId now g hg
      simp only [Store.statusConsistent, Store.insertGoal, List.all_append, List.all_cons,
        List.all_nil, Bool.and_true, Bool.and_eq_true] at hs ⊢
      refine ⟨hs, ?_⟩
      simp [Goal.statusConsistent, hprog, hcp', hstatus hst']
  | record requester goalId body now f =>
    rcases recordProgress_cases s requester goalId body now f with
      h | ⟨_, _, h⟩ | ⟨g, p, _, _, _, h | h⟩
    · simp only [step, h]
      exact hs
    · simp only [step, h]
      exact hs
    · simp only [step, h]
      exact saveGoal_all s _ _ hs (pushProgress_statusConsistent g p body.notes now)
    · simp only [step, h]
      exact saveGoal_all s _ _ hs (pushProgress_statusConsistent g p body.notes now)

theorem run_statusConsistent (s : Store) (events : List Event)
    (hs : s.statusConsistent = true) (hev : ∀ e ∈ events, e.suppliesState = false) :
    (run s events).statusConsistent = true := by
  induction events generalizing s with
  | nil => exact hs
  | cons e es ih =>
    simp only [run, List.foldl_cons]
    apply ih
    · exact step_statusConsistent s e hs (hev e (List.mem_cons_self e es))
    · intro e' he'
      exact hev e' (List.mem_cons_of_mem e he')

/-- C27: from a store whose goals all have a status that agrees with their progress (the
empty collection for one), after any sequence of creation requests that carry no
`currentProgress`, `status` or `progressUpdates` and of progress requests, every persisted
goal is `completed` exactly when its progress is 100 and `not-started` exactly when its
progress is 0; hence the statistic `completedGoals` of `router.get('/')` is the number of the
requester's goals whose status is `completed`. -/
theorem status_agrees_with_progress (s : Store) (events : List Event) (requester : Nat)
    (hs : s.statusConsistent = true) (hev : ∀ e ∈ events, e.suppliesState = false) :
    (∀ g ∈ (run s events).goals,
        (g.status = Status.completed ↔ g.currentProgress = 100)
          ∧ (g.status = Status.notStarted ↔ g.currentProgress = 0))
      ∧ (listGoals (run s events) requester).2.completedGoals
          = (((run s events).goalsOf requester).filter
              (fun g => decide (g.status = Status.completed))).length := by
  have hrun := run_statusConsistent s events hs hev
  simp only [Store.statusConsistent, List.all_eq_true, Goal.statusConsistent,
    Bool.and_eq_true, decide_eq_true_eq] at hrun
  refine ⟨hrun, ?_⟩
  simp only [listGoals, goalStats]
  have hperm := List.perm_insertionSort (fun a b : Goal => b.createdAt ≤ a.createdAt)
    ((run s events).goalsOf requester)
  rw [(hperm.filter _).length_eq]
  congr 1
  apply List.filter_congr
  intro g hg
  have hmem : g ∈ (run s events).goals := by
    simp only [Store.goalsOf, List.mem_filter] at hg
    exact hg.1
  have := (hrun g hmem).1
  by_cases h : g.currentProgress = 100
  · simp [h, this.mpr h]
  · have hne : ¬ g.status = Status.completed := fun hc => h (this.mp hc)
    simp [h, hne]

/-- Witness of C27: a creation, an update to 80, a rejected update and an update to 40. -/
theorem status_agrees_with_progress_witness :
    (Store.mk [] [sampleUser]).statusConsistent = true
      ∧ (∀ e ∈ sampleEvents, e.suppliesState = false)
      ∧ (∀ g ∈ (run (Store.mk [] [sampleUser]) sampleEvents).goals,
          (g.status = Status.completed ↔ g.currentProgress = 100)
            ∧ (g.status = Status.notStarted ↔ g.currentProgress = 0))
      ∧ (listGoals (run (Store.mk [] [sampleUser]) sampleEvents) 7).2.completedGoals
          = (((run (Store.mk [] [sampleUser]) sampleEvents).goalsOf 7).filter
              (fun g => decide (g.status = Status.completed))).length :=
  ⟨by decide, by decide,
    status_agrees_with_progress (Store.mk [] [sampleUser]) sampleEvents 7 (by decide)
      (by decide)⟩

/-! ## Ownership of a created goal -/

/-- C29: whatever the body holds, its own `user` field included, a created goal is owned by
the requester, and it is the only goal the request adds. -/
theorem createGoal_owner (s : Store) (requester : Nat) (body : GoalInput) (newId : Nat)
    (now : Int) (f : Faults) (s' : Store) (g : Goal)
    (hres : createGoal s requester body newId now f = (s', Response.created g)) :
    g.user = requester ∧ s'.goals = s.goals ++ [g] := by
  rcases createGoal_cases s requester body newId now f with h | ⟨g₀, hg₀, _, h⟩
  · rw [h] at hres
    simp at hres
  · rw [h] at hres
    simp only [Prod.mk.injEq, Response.created.injEq] at hres
    obtain ⟨hs', hg⟩ := hres
    subst hs' hg
    exact ⟨(newGoal_some body requester newId now g₀ hg₀).1, rfl⟩

/-- Witness of C29: user 7 sends a body whose `user` field names user 99. -/
theorem createGoal_owner_witness :
    ({ sampleBody with user := some 99 } : GoalInput).user = some 99
      ∧ createGoal ⟨[], []⟩ 7 { sampleBody with user := some 99 } 1 0 Faults.none
          = (⟨[freshGoal], []⟩, Response.created freshGoal)
      ∧ freshGoal.user = 7 ∧ (Store.mk [freshGoal] []).goals = [] ++ [freshGoal] :=
  ⟨rfl, by decide,
    createGoal_owner ⟨[], []⟩ 7 { sampleBody with user := some 99 } 1 0 Faults.none
      ⟨[freshGoal], []⟩ freshGoal (by decide)⟩

/-! ## A response that does not accept -/

/-- C28: a response whose status is not `accepted`, whether it succeeds or fails, leaves the
accountability partner of every user as it was. -/
theorem respond_keeps_partners (s : Store) (b rid : Nat) (body : RespondInput) (f : Faults)
    (hb : body.status ≠ some "accepted") (x : Nat) :
    (respond s b rid body f).1.partnerOf x = s.partnerOf x := by
  cases hu : s.findUser b with
  | none =>
    by_cases hf : f.find = true
    · simp [respond, hf]
    · simp [respond, hf, hu]
  | some ub =>
    cases hr : ub.partnerRequests.find? (fun r => decide (r._id = rid)) with
    | none =>
      by_cases hf : f.find = true
      · simp [respond, hf]
      · simp [respond, hf, hu, hr]
    | some r =>
      rw [respond_other s b rid body f ub r hu hr hb]
      have hub := (findUser_some s b ub hu).2
      by_cases hf : f.find = true
      · simp [hf]
      · cases castRequestStatus body.status with
        | none => simp [hf]
        | some st =>
          by_cases hs : f.save = true
          · simp [hf, hs]
          · simp only [hf, hs, Bool.false_eq_true, if_false]
            exact partnerOf_saveUser s (ub.withStatus rid st) ub
              (by rw [← hub] at hu; exact hu) rfl x

/-- Witness of C28: users 1 and 2 are linked through the accepted request 10; user 2 then
answers `rejected`: the request is stored as `rejected` and both stay linked. -/
theorem respond_keeps_partners_witness :
    rejectBody.status ≠ some "accepted"
      ∧ annBobLinked.partnerOf 1 = some 2 ∧ annBobLinked.partnerOf 2 = some 1
      ∧ (respond annBobLinked 2 10 rejectBody Faults.none).1.findRequest 2 10
          = some (PartnerRequest.mk 10 1 RequestStatus.rejected 0)
      ∧ (respond annBobLinked 2 10 rejectBody Faults.none).1.partnerOf 1
          = annBobLinked.partnerOf 1
      ∧ (respond annBobLinked 2 10 rejectBody Faults.none).1.partnerOf 2
          = annBobLinked.partnerOf 2 :=
  ⟨by decide, by decide, by decide, by decide,
    respond_keeps_partners annBobLinked 2 10 rejectBody Faults.none (by decide) 1,
    respond_keeps_partners annBobLinked 2 10 rejectBody Faults.none (by decide) 2⟩

/-! ## Objects built by the analytics loop -/

theorem prop?_bump {K : Type} [DecidableEq K] (obj : List (K × Int)) (key k : K) (v : Int) :
    prop? (bump obj key v) k
      = if key = k then some ((prop? obj k).getD 0 + v) else prop? obj k := by
  induction obj with
  | nil =>
    by_cases h : key = k
    · simp [bump, prop?, h]
    · simp [bump, prop?, h]
  | cons a l ih =>
    obtain ⟨k', x⟩ := a
    by_cases hk : k' = key
    · subst hk
      by_cases h : k' = k
      · simp [bump, prop?, h]
      · simp [bump, prop?, h]
    · by_cases h' : k' = k
      · subst h'
        have hne : ¬ key = k' := fun h => hk h.symm
        simp [bump, prop?, hk, hne]
      · simp only [prop?] at ih
        simp only [bump, hk, if_false, prop?, List.find?, h', decide_False]
        exact ih

theorem sum_bump {K : Type} [DecidableEq K] (obj : List (K × Int)) (key : K) (v : Int) :
    ((bump obj key v).map (fun kv => kv.2)).sum = (obj.map (fun kv => kv.2)).sum + v := by
  induction obj with
  | nil => simp [bump]
  | cons a l ih =>
    obtain ⟨k', x⟩ := a
    by_cases hk : k' = key
    · simp [bump, hk]
      ring
    · simp [bump, hk, ih]
      ring

theorem keys_bump {K : Type} [DecidableEq K] (obj : List (K × Int)) (key : K) (v : Int) :
    (bump obj key v).map (fun kv => kv.1)
      = if key ∈ obj.map (fun kv => kv.1) then obj.map (fun kv => kv.1)
        else obj.map (fun kv => kv.1) ++ [key] := by
  induction obj with
  | nil => simp [bump]
  | cons a l ih =>
    obtain ⟨k', x⟩ := a
    by_cases hk : k' = key
    · simp [bump, hk]
    · have hne : ¬ key = k' := fun h => hk h.symm
      simp only [bump, hk, if_false, List.map_cons, ih, List.mem_cons, hne, false_or]
      split_ifs <;> simp

theorem prop?_tally {K : Type} [DecidableEq K] (key : Goal → K) (val : Goal → Int)
    (goals : List Goal) (obj : List (K × Int)) (k : K) :
    prop? (tally key val goals obj) k
      = if (prop? obj k).isSome ∨ ∃ g ∈ goals, key g = k then
          some ((prop? obj k).getD 0
            + ((goals.filter (fun g => decide (key g = k))).map val).sum)
        else none := by
  induction goals generalizing obj with
  | nil =>
    cases h : prop? obj k with
    | none => simp [tally, h]
    | some v => simp [tally, h]
  | cons g l ih =>
    have hstep : tally key val (g :: l) obj = tally key val l (bump obj (key g) (val g)) := rfl
    rw [hstep, ih, prop?_bump]
    by_cases hg : key g = k
    · simp [hg]
      ring
    · cases h : prop? obj k with
      | none => simp [hg, h]
      | some v => simp [hg, h]

theorem sum_tally {K : Type} [DecidableEq K] (key : Goal → K) (val : Goal → Int)
    (goals : List Goal) (obj : List (K × Int)) :
    ((tally key val goals obj).map (fun kv => kv.2)).sum
      = (obj.map (fun kv => kv.2)).sum + (goals.map val).sum := by
  induction goals generalizing obj with
  | nil => simp [tally]
  | cons g l ih =>
    have hstep : tally key val (g :: l) obj = tally key val l (bump obj (key g) (val g)) := rfl
    rw [hstep, ih, sum_bump]
    simp
    ring

theorem nodup_tally {K : Type} [DecidableEq K] (key : Goal → K) (val : Goal → Int)
    (goals : List Goal) (obj : List (K × Int)) (h : (obj.map (fun kv => kv.1)).Nodup) :
    ((tally key val goals obj).map (fun kv => kv.1)).Nodup := by
  induction goals generalizing obj with
  | nil => exact h
  | cons g l ih =>
    have hstep : tally key val (g :: l) obj = tally key val l (bump obj (key g) (val g)) := rfl
    rw [hstep]
    apply ih
    rw [keys_bump]
    split_ifs with hmem
    · exact h
    · exact List.Nodup.append h (List.nodup_singleton _) (by simpa using hmem)

theorem analyticsLoop_eq (cal : Calendar) (goals : List Goal) :
    analyticsLoop cal goals
      = (tally (fun g => g.category) (fun _ => 1) goals [],
         tally (fun g => cal.getMonth g.createdAt) (fun g => g.currentProgress) goals []) := by
  unfold analyticsLoop tally
  generalize ([] : List (Category × Int)) = a
  generalize ([] : List (Nat × Int)) = b
  induction goals generalizing a b with
  | nil => rfl
  | cons g l ih => simp only [List.foldl_cons, ih]

/-! ## Category distribution and monthly progress -/

/-- C24: for every list of goals, `categoryData` has, for each category that occurs, the
number of goals of that category, has no property for a category without goals, holds each
category once, and its values sum to the number of goals. -/
theorem categoryData_spec (cal : Calendar) (goals : List Goal) (c : Category) :
    prop? (analyticsLoop cal goals).1 c
        = (if ∃ g ∈ goals, g.category = c then
            some (((goals.filter (fun g => decide (g.category = c))).length : ℕ) : Int)
           else none)
      ∧ ((analyticsLoop cal goals).1.map (fun kv => kv.2)).sum = ((goals.length : ℕ) : Int)
      ∧ ((analyticsLoop cal goals).1.map (fun kv => kv.1)).Nodup := by
  rw [analyticsLoop_eq]
  refine ⟨?_, ?_, ?_⟩
  · rw [prop?_tally]
    simp [prop?]
  · rw [sum_tally]
    simp
  · exact nodup_tally _ _ goals [] (by simp)

/-- C23, as stated, fails: a goal created in January 2023 and a goal created in January 2024
are added up in the one entry of month 0. -/
theorem monthlyProgress_merges_years :
    utcCalendar.getFullYear goalJan2023.createdAt = 2023
      ∧ utcCalendar.getFullYear goalJan2024.createdAt = 2024
      ∧ goalJan2023.currentProgress = 30 ∧ goalJan2024.currentProgress = 50
      ∧ (analyticsLoop utcCalendar [goalJan2023, goalJan2024]).2 = [(0, 80)] := by
  decide

/-- C23, amended: for every list of goals and every month of the year as `getMonth` gives
it, `monthlyProgress` has for that month the raw sum of `currentProgress` over exactly the
goals created in that month of any year, and no property when there is no such goal; it holds
each month once, and its values sum to the total `currentProgress` of all goals. -/
theorem monthlyProgress_spec (cal : Calendar) (goals : List Goal) (m : Nat) :
    prop? (analyticsLoop cal goals).2 m
        = (if ∃ g ∈ goals, cal.getMonth g.createdAt = m then
            some (((goals.filter (fun g => decide (cal.getMonth g.createdAt = m))).map
              (fun g => g.currentProgress)).sum)
           else none)
      ∧ ((analyticsLoop cal goals).2.map (fun kv => kv.2)).sum
          = (goals.map (fun g => g.currentProgress)).sum
      ∧ ((analyticsLoop cal goals).2.map (fun kv => kv.1)).Nodup := by
  rw [analyticsLoop_eq]
  refine ⟨?_, ?_, ?_⟩
  · rw [prop?_tally]
    simp [prop?]
  · rw [sum_tally]
    simp
  · exact nodup_tally _ _ goals [] (by simp)

/-! ## Goals of the partner -/

/-- C26: for a requester with a user document and no rejected lookup, the handler answers
the empty list when the requester has no partner, and otherwise, the partner having a user
document, exactly the persisted goals that are owned by the partner and public. -/
theorem listPartnerGoals_spec (s : Store) (requester : Nat) (f : Faults) (u : User)
    (hu : s.findUser requester = some u) (hf : f.find = false) :
    (u.accountabilityPartner = none →
        listPartnerGoals s requester f = GoalsResponse.goals [])
      ∧ ∀ p up, u.accountabilityPartner = some p → s.findUser p = some up →
          listPartnerGoals s requester f
              = GoalsResponse.goals
                  (s.goals.filter (fun g => decide (g.user = p) && g.isPublic))
            ∧ ∀ g, g ∈ s.goals.filter (fun g => decide (g.user = p) && g.isPublic)
                ↔ g ∈ s.goals ∧ g.user = p ∧ g.isPublic = true := by
  constructor
  · intro hp
    simp [listPartnerGoals, hf, hu, hp]
  · intro p up hp hup
    have hid := (findUser_some s p up hup).2
    constructor
    · simp [listPartnerGoals, hf, hu, hp, hup, hid]
    · intro g
      simp [List.mem_filter]

/-- Witness of C26: user 1, linked to user 2, gets the one public goal of user 2. -/
theorem listPartnerGoals_spec_witness :
    sharedStore.findUser 1
        = some { plainUser 1 "ann" with accountabilityPartner := some 2 }
      ∧ listPartnerGoals sharedStore 1 Faults.none
          = GoalsResponse.goals [{ sampleGoal with _id := 21, user := 2, isPublic := true }]
      ∧ listPartnerGoals sharedStore 3 Faults.none = GoalsResponse.goals [] := by
  have h1 := listPartnerGoals_spec sharedStore 1 Faults.none
    { plainUser 1 "ann" with accountabilityPartner := some 2 } (by decide) rfl
  have h3 := listPartnerGoals_spec sharedStore 3 Faults.none (plainUser 3 "cy")
    (by decide) rfl
  refine ⟨by decide, ?_, h3.1 rfl⟩
  rw [(h1.2 2 { plainUser 2 "bob" with
      accountabilityPartner := some 1
      partnerRequests := [PartnerRequest.mk 10 1 RequestStatus.accepted 0] }
    rfl (by decide)).1]
  decide

/-! ## Activity streak -/

theorem isoDay_sub_day (t : Int) : isoDay (t - 86400000) = isoDay t - 1 := by
  unfold isoDay
  omega

theorem hasEntryOn_perm (l₁ l₂ : List ProgressUpdate) (h : l₁.Perm l₂) (d : Int) :
    hasEntryOn l₁ d = hasEntryOn l₂ d := by
  have hmem : ∀ u, u ∈ l₁ ↔ u ∈ l₂ := fun u => h.mem_iff
  cases h2 : hasEntryOn l₂ d with
  | true =>
    simp only [hasEntryOn, List.any_eq_true] at h2 ⊢
    obtain ⟨u, hu, hd⟩ := h2
    exact ⟨u, (hmem u).mpr hu, hd⟩
  | false =>
    cases h1 : hasEntryOn l₁ d with
    | false => rfl
    | true =>
      simp only [hasEntryOn, List.any_eq_true] at h1
      obtain ⟨u, hu, hd⟩ := h1
      have : hasEntryOn l₂ d = true := by
        simp only [hasEntryOn, List.any_eq_true]
        exact ⟨u, (hmem u).mp hu, hd⟩
      rw [h2] at this
      exact absurd this (by decide)

theorem streakLoop_acc (zone : Zone) (updates : List ProgressUpdate) (fuel streak : Nat)
    (date : Int) :
    streakLoop zone updates fuel streak date = streak + streakLoop zone updates fuel 0 date := by
  induction fuel generalizing streak date with
  | zero => simp [streakLoop]
  | succ n ih =>
    simp only [streakLoop]
    split_ifs
    · rw [ih (streak + 1), ih (0 + 1)]
      omega
    · rfl

theorem streakLoop_spec (zone : Zone) (updates : List ProgressUpdate) (fuel : Nat) (date : Int)
    (hzone : ∀ j : Nat, j < fuel →
      zone.prevDay (date - j * 86400000) = date - (j + 1) * 86400000) :
    streakLoop zone updates fuel 0 date ≤ fuel
      ∧ (∀ j : Nat, j < streakLoop zone updates fuel 0 date →
          hasEntryOn updates (isoDay date - j) = true)
      ∧ (streakLoop zone updates fuel 0 date < fuel →
          hasEntryOn updates (isoDay date - (streakLoop zone updates fuel 0 date : Nat))
            = false) := by
  induction fuel generalizing date with
  | zero => simp [streakLoop]
  | succ n ih =>
    simp only [streakLoop]
    have hstep : zone.prevDay date = date - 86400000 := by
      have := hzone 0 (by omega)
      simpa using this
    by_cases h : updates.any (fun u => decide (isoDay u.date = isoDay date)) = true
    · obtain ⟨h1, h2, h3⟩ := ih (date - 86400000) (by
        intro j hj
        have := hzone (j + 1) (by omega)
        push_cast at this
        rw [show date - 86400000 - (j : Int) * 86400000 = date - ((j : Int) + 1) * 86400000 by
          ring, this]
        ring)
      rw [isoDay_sub_day] at h2 h3
      simp only [h, if_true, hstep]
      rw [streakLoop_acc]
      refine ⟨by omega, ?_, ?_⟩
      · intro j hj
        cases j with
        | zero => simpa [hasEntryOn] using h
        | succ j =>
          have := h2 j (by omega)
          rw [← this]
          congr 1
          push_cast
          ring
      · intro hlt
        have := h3 (by omega)
        rw [← this]
        congr 1
        push_cast
        ring
    · have h' : updates.any (fun u => decide (isoDay u.date = isoDay date)) = false := by
        simpa using h
      simp only [h', Bool.false_eq_true, if_false]
      refine ⟨by omega, fun j hj => absurd hj (by omega), fun _ => ?_⟩
      simpa [hasEntryOn] using h'

theorem streakLoop_congr (zone : Zone) (l₁ l₂ : List ProgressUpdate)
    (h : ∀ d, hasEntryOn l₁ d = hasEntryOn l₂ d) (fuel streak : Nat) (date : Int) :
    streakLoop zone l₁ fuel streak date = streakLoop zone l₂ fuel streak date := by
  induction fuel generalizing streak date with
  | zero => rfl
  | succ n ih =>
    have hd := h (isoDay date)
    simp only [hasEntryOn] at hd
    simp only [streakLoop, hd, ih]

theorem calculateStreak_eq (zone : Zone) (goals : List Goal) (today : Int) :
    calculateStreak zone goals today
      = streakLoop zone (goals.flatMap (fun g => g.progressUpdates)) 30 0 today := by
  unfold calculateStreak
  apply streakLoop_congr
  intro d
  exact hasEntryOn_perm _ _ (List.perm_insertionSort _ _) d

theorem fixedZone_prevDay (offset t : Int) : (fixedZone offset).prevDay t = t - 86400000 := by
  simp only [Zone.prevDay, fixedZone]
  ring

/-- C22, the claim as stated fails: for a user in central Europe at 01:30 local time on
28 October 2024 (00:30 UTC), the day after summer time ended, the step back of one local day
is 25 hours long and lands on 26 October at 23:30 UTC. With an entry on 28 October and one on
26 October and none in between, in UTC as in local time, `calculateStreak` is 2, although
the day before today holds no entry and the largest count of consecutive days is 1. -/
theorem calculateStreak_skips_day_at_clock_change :
    calculateStreak berlinAutumn2024 [gapGoal] 1730075400000 = 2
      ∧ hasEntryOn gapGoal.progressUpdates (isoDay 1730075400000) = true
      ∧ hasEntryOn gapGoal.progressUpdates (isoDay 1730075400000 - 1) = false
      ∧ (∀ u ∈ gapGoal.progressUpdates, ¬ (1729980000000 ≤ u.date ∧ u.date < 1730073600000))
      ∧ berlinAutumn2024.prevDay 1730075400000 = 1730075400000 - 90000000 := by
  decide

/-- C22 (amended): whenever each of the 30 steps back from `today` is 24 hours long, as it
is when the offset of the local time zone from UTC does not change over the days walked, and
with days taken as UTC days, `calculateStreak` is at most 30; each of the days `today`,
`today - 1`, ... counted by it holds an entry; if it is below 30 the next day back holds
none; so it is the largest such count up to 30: no entry today gives 0 and entries on all of
the last 30 days give 30. It is the same for every rearrangement of the entries. -/
theorem calculateStreak_spec (zone : Zone) (goals : List Goal) (today : Int)
    (hzone : ∀ j : Nat, j < 30 →
      zone.prevDay (today - j * 86400000) = today - (j + 1) * 86400000) :
    calculateStreak zone goals today ≤ 30
      ∧ (∀ j : Nat, j < calculateStreak zone goals today →
          hasEntryOn (goals.flatMap (fun g => g.progressUpdates)) (isoDay today - j) = true)
      ∧ (calculateStreak zone goals today < 30 →
          hasEntryOn (goals.flatMap (fun g => g.progressUpdates))
            (isoDay today - (calculateStreak zone goals today : Nat)) = false)
      ∧ (∀ k : Nat, k ≤ 30 →
          (∀ j : Nat, j < k →
            hasEntryOn (goals.flatMap (fun g => g.progressUpdates)) (isoDay today - j) = true) →
          k ≤ calculateStreak zone goals today)
      ∧ (hasEntryOn (goals.flatMap (fun g => g.progressUpdates)) (isoDay today) = false →
          calculateStreak zone goals today = 0)
      ∧ ((∀ j : Nat, j < 30 →
            hasEntryOn (goals.flatMap (fun g => g.progressUpdates)) (isoDay today - j) = true) →
          calculateStreak zone goals today = 30)
      ∧ ∀ goals' : List Goal,
          (goals'.flatMap (fun g => g.progressUpdates)).Perm
            (goals.flatMap (fun g => g.progressUpdates)) →
          calculateStreak zone goals' today = calculateStreak zone goals today := by
  obtain ⟨h1, h2, h3⟩ :=
    streakLoop_spec zone (goals.flatMap (fun g => g.progressUpdates)) 30 today hzone
  rw [← calculateStreak_eq] at h1 h2 h3
  have hmax : ∀ k : Nat, k ≤ 30 →
      (∀ j : Nat, j < k →
        hasEntryOn (goals.flatMap (fun g => g.progressUpdates)) (isoDay today - j) = true) →
      k ≤ calculateStreak zone goals today := by
    intro k hk hall
    by_contra hlt
    have hlt' : calculateStreak zone goals today < k := by omega
    have hno := h3 (by omega)
    rw [hall _ hlt'] at hno
    exact absurd hno (by decide)
  refine ⟨h1, h2, h3, hmax, ?_, ?_, ?_⟩
  · intro hnone
    by_contra hne
    have := h2 0 (by omega)
    simp only [Nat.cast_zero, sub_zero] at this
    rw [hnone] at this
    exact absurd this (by decide)
  · intro hall
    have := hmax 30 (le_refl _) hall
    omega
  · intro goals' hperm
    rw [calculateStreak_eq, calculateStreak_eq]
    apply streakLoop_congr
    exact hasEntryOn_perm _ _ hperm

/-- Witness of C22: in a zone three hours ahead of UTC throughout, the same entries at the
same instant give a streak of 1: the day before today holds no entry. -/
theorem calculateStreak_spec_witness :
    (∀ j : Nat, j < 30 →
      (fixedZone 10800000).prevDay (1730075400000 - j * 86400000)
        = 1730075400000 - (j + 1) * 86400000)
      ∧ calculateStreak (fixedZone 10800000) [gapGoal] 1730075400000 = 1
      ∧ hasEntryOn ([gapGoal].flatMap (fun g => g.progressUpdates))
          (isoDay 1730075400000 - (1 : Nat)) = false := by
  have hz : ∀ j : Nat, j < 30 →
      (fixedZone 10800000).prevDay (1730075400000 - j * 86400000)
        = 1730075400000 - (j + 1) * 86400000 := by
    intro j _
    rw [fixedZone_prevDay]
    ring
  have h := calculateStreak_spec (fixedZone 10800000) [gapGoal] 1730075400000 hz
  have h1 : calculateStreak (fixedZone 10800000) [gapGoal] 1730075400000 = 1 := by decide
  refine ⟨hz, h1, ?_⟩
  have h3 := h.2.2.1 (by rw [h1]; decide)
  rw [h1] at h3
  exact h3

/-! ## Time series -/

theorem monthGoals_eq (cal : Calendar) (goals : List Goal) (now : Int) (i : Nat) :
    monthGoals cal goals now i = createdIn cal goals (monthIndex cal now - i) := by
  unfold monthGoals createdIn monthIndex
  apply List.filter_congr
  intro g _
  have hg := cal.getMonth_lt g.createdAt
  have hn := cal.getMonth_lt now
  by_cases h : cal.getFullYear g.createdAt * 12 + (cal.getMonth g.createdAt : Int)
      = cal.getFullYear now * 12 + (cal.getMonth now : Int) - (i : Int)
  · have h1 : (cal.getMonth g.createdAt : Int)
        = ((cal.getMonth now : Int) - (i : Int)) % 12 := by omega
    have h2 : cal.getFullYear g.createdAt
        = cal.getFullYear now + ((cal.getMonth now : Int) - (i : Int)) / 12 := by omega
    have e1 : decide ((cal.getMonth g.createdAt : Int)
        = ((cal.getMonth now : Int) - (i : Int)) % 12) = true := decide_eq_true h1
    have e2 : decide (cal.getFullYear g.createdAt
        = cal.getFullYear now + ((cal.getMonth now : Int) - (i : Int)) / 12) = true :=
      decide_eq_true h2
    rw [e1, e2, decide_eq_true h]
    rfl
  · have h3 : ¬ ((cal.getMonth g.createdAt : Int)
          = ((cal.getMonth now : Int) - (i : Int)) % 12
        ∧ cal.getFullYear g.createdAt
          = cal.getFullYear now + ((cal.getMonth now : Int) - (i : Int)) / 12) := by
      rintro ⟨h1, h2⟩
      apply h
      omega
    simp only [h, decide_False]
    simpa using h3

theorem jsRound_avgProgress (monthGoals : List Goal) :
    jsRound (avgProgress monthGoals) = roundedAverage monthGoals := by
  unfold avgProgress roundedAverage
  by_cases h : monthGoals.length > 0
  · simp only [h, if_true, foldl_progress, zero_add]
    exact jsRound_div_nat _ _ h
  · simp only [h, if_false]
    simp [jsRound, Rat.floor_def']

theorem timeSeries_progress (cal : Calendar) (goals : List Goal) (now : Int) :
    (getTimeSeriesData cal goals now).map (fun e => e.progress)
      = [5, 4, 3, 2, 1, 0].map (fun i => roundedAverage (monthGoals cal goals now i)) := by
  simp only [getTimeSeriesData, List.map_map, List.map_cons, List.map_nil,
    Function.comp, timeSeriesEntry, jsRound_avgProgress]

/-- C25, as stated, fails: two goals created in the current month at progress 0 and 1 have
the average 1/2, and the `progress` field of the current month is 1. -/
theorem timeSeries_progress_is_rounded :
    monthGoals utcCalendar halfGoals 1705276800000 0 = halfGoals
      ∧ avgProgress halfGoals = 1 / 2
      ∧ (getTimeSeriesData utcCalendar halfGoals 1705276800000).map (fun e => e.progress)
          = [0, 0, 0, 0, 0, 1] := by
  refine ⟨by decide, ?_, ?_⟩
  · simp [avgProgress, halfGoals, goalJan2024, sampleGoal]
  · rw [timeSeries_progress]
    decide

/-- C25, amended: `getTimeSeriesData` returns 6 entries, for the 6 consecutive calendar
months that end with the current one, oldest first, years carried; the entry of a month
has as `goals` the number of goals created in that year and month and as `progress` the
average `currentProgress` of those goals rounded to the nearest integer, halves up, or 0 when
there are none. -/
theorem getTimeSeriesData_spec (cal : Calendar) (goals : List Goal) (now : Int) :
    (getTimeSeriesData cal goals now).length = 6
      ∧ ∀ k : Nat, k < 6 →
          ∃ e, (getTimeSeriesData cal goals now)[k]? = some e
            ∧ e.goals = (createdIn cal goals (monthIndex cal now - 5 + k)).length
            ∧ e.progress
                = jsRound
                    (if createdIn cal goals (monthIndex cal now - 5 + k) = [] then 0
                     else ((((createdIn cal goals (monthIndex cal now - 5 + k)).map
                          (fun g => g.currentProgress)).sum : Int) : ℚ)
                        / (((createdIn cal goals (monthIndex cal now - 5 + k)).length : ℕ) : ℚ))
            ∧ e.progress = roundedAverage (createdIn cal goals (monthIndex cal now - 5 + k))
            ∧ e.month = monthShort (((monthIndex cal now - 5 + k) % 12).toNat) := by
  have hentry : ∀ i : Nat,
      (timeSeriesEntry cal goals now i).goals
          = (createdIn cal goals (monthIndex cal now - i)).length
        ∧ (timeSeriesEntry cal goals now i).progress
          = jsRound
              (if createdIn cal goals (monthIndex cal now - i) = [] then 0
               else ((((createdIn cal goals (monthIndex cal now - i)).map
                    (fun g => g.currentProgress)).sum : Int) : ℚ)
                  / (((createdIn cal goals (monthIndex cal now - i)).length : ℕ) : ℚ))
        ∧ (timeSeriesEntry cal goals now i).progress
          = roundedAverage (createdIn cal goals (monthIndex cal now - i))
        ∧ (timeSeriesEntry cal goals now i).month
          = monthShort (((monthIndex cal now - i) % 12).toNat) := by
    intro i
    simp only [timeSeriesEntry, monthGoals_eq]
    refine ⟨trivial, ?_, jsRound_avgProgress _, ?_⟩
    · congr 1
      unfold avgProgress
      by_cases h : createdIn cal goals (monthIndex cal now - i) = []
      · simp [h]
      · have hpos : (createdIn cal goals (monthIndex cal now - i)).length > 0 :=
          List.length_pos.mpr h
        simp only [hpos, if_true, h, if_false, foldl_progress, zero_add]
    · congr 2
      unfold monthIndex
      omega
  refine ⟨rfl, ?_⟩
  intro k hk
  have hidx : ∀ i : Nat, k + i = 5 →
      (monthIndex cal now - 5 + (k : Int)) = monthIndex cal now - (i : Int) := by
    intro i hi
    omega
  interval_cases k
  · refine ⟨timeSeriesEntry cal goals now 5, rfl, ?_⟩
    rw [hidx 5 rfl]; exact hentry 5
  · refine ⟨timeSeriesEntry cal goals now 4, rfl, ?_⟩
    rw [hidx 4 rfl]; exact hentry 4
  · refine ⟨timeSeriesEntry cal goals now 3, rfl, ?_⟩
    rw [hidx 3 rfl]; exact hentry 3
  · refine ⟨timeSeriesEntry cal goals now 2, rfl, ?_⟩
    rw [hidx 2 rfl]; exact hentry 2
  · refine ⟨timeSeriesEntry cal goals now 1, rfl, ?_⟩
    rw [hidx 1 rfl]; exact hentry 1
  · refine ⟨timeSeriesEntry cal goals now 0, rfl, ?_⟩
    rw [hidx 0 rfl]; exact hentry 0

end GoalFlow
